import Mathlib

/-!
# Verification of the inbound SMTP/LMTP session engine

A shallow embedding of the session state machine and recipient policy
pipeline of the mail server:

* `handle_rcpt_to` / `rcpt_error` embed
  `src/crates/smtp/src/inbound/rcpt.rs`;
* `ingest` / `Session.reset` embed
  `src/crates/smtp/src/inbound/session.rs`.

External collaborators (Sieve runtime, milter and MTA-hook transports,
directory back-ends, rate limiter, expression evaluator, queue) are out of
scope of the core per spec §1/§6; they appear here as oracle parameters
(`RcptEnv`, `IngestEnv`) that fix the reply each collaborator would give.
Transport writes are modelled as always succeeding events; the sleep of the
tarpit is an explicit `Event.sleep`.  A few helpers used by the core but not
shipped under `src/` (the smtp-proto receivers and command parser,
`can_send_data`, `apply_envelope_modification`, the `SessionAddress`
equality and `domain_part`) are modelled from the spec; each carries a doc
comment saying so.
-/

namespace MailServer

/-- An observable side effect of the session on its transport: either a
write of a status line (spec §4.G; writes are modelled as succeeding) or the
tarpit sleep of `rcpt_error` (duration in abstract ticks). -/
inductive Event where
  | write (line : String)
  | sleep (ticks : Nat)
  deriving Repr, DecidableEq

/-- Lowercasing (`str::to_lowercase` of the source), modelled character-wise
over the string's character list (the addresses of interest are ASCII). -/
def toLowercase (s : String) : String := String.mk (s.data.map Char.toLower)

/-- `str::contains(char)` of the source, over the character list. -/
def containsChar (s : String) (c : Char) : Bool := s.data.contains c

/-- Modelled from the spec (§3): `domain_part` (the `DomainPart` trait of the
queue crate, not under `src/`) returns the suffix after the last `@` of an
address, and the empty string when no `@` is present. -/
def domainPart (s : String) : String :=
  if containsChar s '@' then
    String.mk ((s.data.reverse.takeWhile (fun c => c ≠ '@')).reverse)
  else ""

/-- The per-recipient envelope tuple built by `handle_rcpt_to`
(`SessionAddress` in `crates/smtp/src/core`): original address, lowercased
address, domain part of the lowercased address, DSN flags and optional
ORCPT. -/
structure SessionAddress where
  address : String
  address_lcase : String
  domain : String
  flags : Nat
  dsn_info : Option String
  deriving Repr, DecidableEq, Inhabited

/-- Modelled from the spec (§3): `SessionAddress` equality (its `PartialEq`
implementation lives in the smtp core crate, not under `src/`) compares the
lowercased addresses only. -/
def SessionAddress.eqv (a b : SessionAddress) : Bool :=
  a.address_lcase == b.address_lcase

/-- The parsed `RCPT TO` command (`RcptTo` of smtp-proto): address, DSN
NOTIFY flag bits and optional ORCPT. -/
structure RcptTo where
  address : String
  flags : Nat
  orcpt : Option String
  deriving Repr, DecidableEq

/-- Modelled from the spec (§4.E): the `RCPT_NOTIFY_*` flag bits of
smtp-proto (not under `src/`), four distinct bits. -/
def RCPT_NOTIFY_SUCCESS : Nat := 1
def RCPT_NOTIFY_FAILURE : Nat := 2
def RCPT_NOTIFY_DELAY : Nat := 4
def RCPT_NOTIFY_NEVER : Nat := 8

/-- The mask `RCPT_NOTIFY_DELAY | RCPT_NOTIFY_NEVER | RCPT_NOTIFY_SUCCESS |
RCPT_NOTIFY_FAILURE` tested in `handle_rcpt_to`. -/
def dsnNotifyMask : Nat :=
  RCPT_NOTIFY_DELAY ||| RCPT_NOTIFY_NEVER ||| RCPT_NOTIFY_SUCCESS ||| RCPT_NOTIFY_FAILURE

/-- The connection parameters consulted by the session (immutable for the
connection, spec §3): recipient cap, message size cap, DSN switch, error
budget and tarpit duration. -/
structure SmtpParams where
  rcpt_max : Nat
  rcpt_dsn : Bool
  rcpt_errors_max : Nat
  rcpt_errors_wait : Nat
  max_message_size : Nat
  deriving Repr, DecidableEq

/-- The transactional state of the session (`SessionData` in the smtp core
crate): the fields read or written by `ingest`, `handle_rcpt_to` and
`reset`.  The message buffer is a list of characters (octets). -/
structure SessionData where
  mail_from : Option SessionAddress
  spf_mail_from : Option String
  rcpt_to : List SessionAddress
  message : List Char
  priority : Int
  delivery_by : Int
  future_release : Nat
  helo_domain : String
  authenticated_as : String
  rcpt_errors : Nat
  session_id : Nat
  deriving Repr, DecidableEq

/-- The transactional state of a freshly created session: everything empty
or zero. -/
def SessionData.init : SessionData :=
  { mail_from := none, spf_mail_from := none, rcpt_to := [], message := []
    priority := 0, delivery_by := 0, future_release := 0
    helo_domain := "", authenticated_as := "", rcpt_errors := 0, session_id := 0 }

/-- `Session::reset` (session.rs lines 329-337): clears the sender, the SPF
sender, the recipient list, the message buffer, the priority, the
delivery-by and the future-release values.  No other field is touched. -/
def SessionData.reset (d : SessionData) : SessionData :=
  { d with mail_from := none, spf_mail_from := none, rcpt_to := []
           message := [], priority := 0, delivery_by := 0, future_release := 0 }

/-- `self.data.rcpt_to.push(rcpt)` of rcpt.rs line 60. -/
def SessionData.pushRcpt (d : SessionData) (r : SessionAddress) : SessionData :=
  { d with rcpt_to := d.rcpt_to ++ [r] }

/-- `self.data.rcpt_to.pop()` of the rejection paths of rcpt.rs. -/
def SessionData.popRcpt (d : SessionData) : SessionData :=
  { d with rcpt_to := d.rcpt_to.dropLast }

/-- `self.data.rcpt_to.last().unwrap()` of rcpt.rs (only evaluated after the
tentative push, so the list is never empty there). -/
def SessionData.lastRcpt (d : SessionData) : SessionAddress :=
  (d.rcpt_to.getLast?).getD default

/-- `self.data.rcpt_to.last_mut().unwrap()` assignment of the address
rewriting block (rcpt.rs lines 156-161): replaces the last entry. -/
def SessionData.setLastRcpt (d : SessionData) (r : SessionAddress) : SessionData :=
  { d with rcpt_to := d.rcpt_to.dropLast ++ [r] }

/-- Modelled from the spec (§4.E): `apply_envelope_modification` (defined in
the common crate, not under `src/`) applies a `SetEnvelope { name, value }`
Sieve modification to the named envelope field; the spec says modifications
touch named fields of the envelope only.  We model the `"from"` field, which
replaces the MAIL FROM address of the envelope; a modification naming any
other field leaves the session data unchanged. -/
def SessionData.apply_envelope_modification (d : SessionData) (name value : String) :
    SessionData :=
  if name = "from" then
    let sender : SessionAddress :=
      { address := value, address_lcase := (toLowercase value)
        domain := domainPart (toLowercase value), flags := 0, dsn_info := none }
    { d with mail_from := some sender }
  else d

/-- A modification returned by the Sieve runtime (`ScriptModification` of
the common crate's scripts module); the RCPT stage only interprets
`SetEnvelope`. -/
inductive ScriptModification where
  | setEnvelope (name value : String)
  | other
  deriving Repr, DecidableEq

/-- The result of running a Sieve script (spec §6:
`{Accept{mods}, Reject{message}, Discard, Pass}`); results other than
`Accept` and `Reject` are ignored by the RCPT stage. -/
inductive ScriptResult where
  | accept (modifications : List ScriptModification)
  | reject (message : String)
  | other
  deriving Repr, DecidableEq

/-- The directory collaborator (spec §6): both queries may fail
transiently, which we model as `none`. -/
structure DirectoryOracle where
  is_local_domain : String → Option Bool
  is_local_address : String → Option Bool

/-- The oracle fixing every collaborator answer one `RCPT TO` command can
observe (spec §6): the resolved RCPT Sieve script (already run), whether a
rewrite rule is configured, whether a milter is bound to the RCPT stage, the
milter / MTA-hook verdicts, the rewrite expression value, the resolved
directory, the relay predicate value and the rate-limit gate. -/
structure RcptEnv where
  rcpt_script : Option ScriptResult
  rewrite_configured : Bool
  milter_on_rcpt : Bool
  milter_result : Option String
  mta_hook_result : Option String
  rewrite_result : Option String
  directory : Option DirectoryOracle
  relay_allowed : Option Bool
  is_allowed : Bool

/-- The outcome of one `RCPT TO` command: the updated transactional state,
the ordered side effects, and whether the session continues (`ok = true`
embeds `Ok(())`, `ok = false` embeds the `Err(())` disconnect signal). -/
structure RcptOut where
  data : SessionData
  events : List Event
  ok : Bool
  deriving Repr, DecidableEq

/-- `Session::rcpt_error` (rcpt.rs lines 282-300): sleep for
`params.rcpt_errors_wait`, increment `rcpt_errors`, write the supplied
status; if the incremented counter has reached `rcpt_errors_max`,
additionally write the 421 line and return the disconnect signal. -/
def rcpt_error (p : SmtpParams) (d : SessionData) (response : String) : RcptOut :=
  let d := { d with rcpt_errors := d.rcpt_errors + 1 }
  if d.rcpt_errors < p.rcpt_errors_max then
    ⟨d, [.sleep p.rcpt_errors_wait, .write response], true⟩
  else
    ⟨d, [.sleep p.rcpt_errors_wait, .write response,
         .write "421 4.3.0 Too many errors, disconnecting.\r\n"], false⟩

/-- The loop over Sieve `Accept` modifications (rcpt.rs lines 99-105): every
`SetEnvelope` modification is applied to the envelope in order; other
modification kinds are skipped. -/
def applyModifications (d : SessionData) (modifications : List ScriptModification) :
    SessionData :=
  modifications.foldl
    (fun d m =>
      match m with
      | .setEnvelope name value => d.apply_envelope_modification name value
      | .other => d)
    d

/-- The address rewriting step of the filtering stage (rcpt.rs lines
145-162): when the rewrite expression yields a value containing `@`, the
last (tentative) recipient's original and lowercased addresses and its
domain are overwritten. -/
def rcpt_rewrite (env : RcptEnv) (d : SessionData) : SessionData :=
  match env.rewrite_result with
  | some new_address =>
      if containsChar new_address '@' then
        d.setLastRcpt
          { d.lastRcpt with
            address_lcase := (toLowercase new_address)
            domain := domainPart (toLowercase new_address)
            address := new_address }
      else d
  | none => d

/-- The re-deduplication check of the filtering stage (rcpt.rs lines
164-169): if the (possibly rewritten) last recipient now collides with an
existing entry, it is popped and the duplicate is collapsed to `250`. -/
def rcpt_dedup (d : SessionData) : Sum RcptOut SessionData :=
  if 1 < (d.rcpt_to.filter (fun r => r.eqv d.lastRcpt)).length then
    .inl ⟨d.popRcpt, [.write "250 2.1.5 OK\r\n"], true⟩
  else .inr d

/-- The part of the filtering stage that follows the Sieve script: milter
(rcpt.rs lines 121-131), MTA-hook (lines 133-143), then `rcpt_rewrite` and
`rcpt_dedup`.  `Sum.inl` is an early return of the whole command,
`Sum.inr` continues with the updated state. -/
def rcpt_filter_rest (env : RcptEnv) (d : SessionData) : Sum RcptOut SessionData :=
  -- Milter filtering
  match env.milter_result with
  | some message => .inl ⟨d.popRcpt, [.write message], true⟩
  | none =>
    -- MTAHook filtering
    match env.mta_hook_result with
    | some message => .inl ⟨d.popRcpt, [.write message], true⟩
    | none => rcpt_dedup (rcpt_rewrite env d)

/-- The filtering stage of `handle_rcpt_to` (rcpt.rs lines 62-170): Sieve
script then `rcpt_filter_rest`, guarded by "a script resolved, or a rewrite
rule is configured, or a milter runs on the RCPT stage" (lines 75-85). -/
def rcpt_filter_stage (env : RcptEnv) (d : SessionData) : Sum RcptOut SessionData :=
  if env.rcpt_script.isSome || env.rewrite_configured || env.milter_on_rcpt then
    -- Sieve filtering (lines 87-119)
    match env.rcpt_script with
    | some (.accept modifications) => rcpt_filter_rest env (applyModifications d modifications)
    | some (.reject message) => .inl ⟨d.popRcpt, [.write message], true⟩
    | some .other => rcpt_filter_rest env d
    | none => rcpt_filter_rest env d
  else .inr d

/-- The rate-limit gate and success reply of `handle_rcpt_to`
(rcpt.rs lines 267-279). -/
def rcpt_rate_stage (env : RcptEnv) (d : SessionData) : RcptOut :=
  if env.is_allowed then ⟨d, [.write "250 2.1.5 OK\r\n"], true⟩
  else ⟨d.popRcpt, [.write "451 4.4.5 Rate limit exceeded, try again later.\r\n"], true⟩

/-- The address verification stage of `handle_rcpt_to`
(rcpt.rs lines 172-265): directory resolution, local-domain and
local-address queries, relay predicate; falls through into the rate-limit
stage on success. -/
def rcpt_verify_stage (p : SmtpParams) (env : RcptEnv) (d : SessionData) : RcptOut :=
  let rcpt := d.lastRcpt
  match env.directory with
  | some dir =>
    match dir.is_local_domain rcpt.domain with
    | some true =>
      match dir.is_local_address rcpt.address_lcase with
      | some is_local =>
          if !is_local then
            rcpt_error p d.popRcpt "550 5.1.2 Mailbox does not exist.\r\n"
          else rcpt_rate_stage env d
      | none =>
          ⟨d.popRcpt, [.write "451 4.4.3 Unable to verify address at this time.\r\n"], true⟩
    | some false =>
        if !(env.relay_allowed.getD false) then
          rcpt_error p d.popRcpt "550 5.1.2 Relay not allowed.\r\n"
        else rcpt_rate_stage env d
    | none =>
        ⟨d.popRcpt, [.write "451 4.4.3 Unable to verify address at this time.\r\n"], true⟩
  | none =>
      if !(env.relay_allowed.getD false) then
        rcpt_error p d.popRcpt "550 5.1.2 Relay not allowed.\r\n"
      else rcpt_rate_stage env d

/-- The recipient tuple construction of `handle_rcpt_to`
(rcpt.rs lines 47-55): lowercased address, its domain part, the original
address, the DSN flags and the optional ORCPT. -/
def buildRcpt (rto : RcptTo) : SessionAddress :=
  { domain := domainPart (toLowercase rto.address)
    address_lcase := (toLowercase rto.address)
    address := rto.address
    flags := rto.flags
    dsn_info := rto.orcpt }

/-- `Session::handle_rcpt_to` (rcpt.rs lines 19-280): precondition gates,
DSN parameter check, recipient construction, duplicate collapse, tentative
append, then the filtering, verification and rate-limit stages.  The
`test_mode` debug block (lines 20-27) is compiled out in production and not
modelled. -/
def handle_rcpt_to (p : SmtpParams) (env : RcptEnv) (d : SessionData) (rto : RcptTo) :
    RcptOut :=
  if d.mail_from.isNone then
    ⟨d, [.write "503 5.5.1 MAIL is required first.\r\n"], true⟩
  else if p.rcpt_max ≤ d.rcpt_to.length then
    ⟨d, [.write "451 4.5.3 Too many recipients.\r\n"], true⟩
  -- Verify parameters (lines 36-45)
  else if (rto.flags &&& dsnNotifyMask ≠ 0 || rto.orcpt.isSome) && !p.rcpt_dsn then
    ⟨d, [.write "501 5.5.4 DSN extension has been disabled.\r\n"], true⟩
  -- Build RCPT (lines 47-55) and collapse duplicates (lines 57-59)
  else if d.rcpt_to.any (fun r => r.eqv (buildRcpt rto)) then
    ⟨d, [.write "250 2.1.5 OK\r\n"], true⟩
  else
    match rcpt_filter_stage env (d.pushRcpt (buildRcpt rto)) with
    | .inl out => out
    | .inr d => rcpt_verify_stage p env d

/-- The final status line a command wrote: the last `write` event of its
event list (the tarpit sleep is not a reply). -/
def lastWrite (events : List Event) : Option String :=
  (events.filterMap (fun e => match e with | .write s => some s | .sleep _ => none)).getLast?

/-- The session data as the Sieve stage leaves it: when the resolved RCPT
script accepts with modifications these are applied, otherwise the data is
unchanged. -/
def sieveApplied (env : RcptEnv) (d : SessionData) : SessionData :=
  match env.rcpt_script with
  | some (.accept modifications) => applyModifications d modifications
  | _ => d

/-! ### The session state machine (`ingest` of session.rs)

The line/chunk receivers and the command parser live in the smtp-proto
crate, which is not under `src/`; they are modelled from spec §4.A/§4.B.
The command parser is modelled for the subset of the grammar the verified
session-level claims exercise (`DATA`, `BDAT`, `STARTTLS`, `RSET`, `QUIT`,
`NOOP`); all other lines map to the unknown-command parse error, and
consequently the `Sasl` driver state (entered through `AUTH`) and the
handlers that live outside `src/` (`handle_mail_from`, `handle_ehlo`,
`handle_vrfy`, `handle_expn`, SASL) are not modelled.  The `None` and
`Accepted` state variants are the swap sentinels that `ingest` marks
`unreachable!` and are likewise omitted. -/

/-- The two inbound protocols (`ServerProtocol` restricted to the two
values the session distinguishes). -/
inductive Protocol where
  | smtp
  | lmtp
  deriving Repr, DecidableEq

/-- Modelled from the spec (§4.A): the phase of the dot-stuffing DATA
receiver (`DataReceiver` of smtp-proto) tracking progress through the
`CRLF . CRLF` terminator across chunk boundaries: at the start of a line,
in the middle of a line, after a CR, after a line-initial dot, and after a
line-initial dot followed by CR. -/
inductive DPhase where
  | lineStart
  | midLine
  | seenCr
  | dot
  | dotCr
  deriving Repr, DecidableEq

/-- Modelled from the spec (§4.A): the resumable DATA receiver.  It writes
octets into the message buffer, drops the leading dot of a dot-stuffed
line, and terminates on the literal sequence `CRLF . CRLF` (the CR of a
candidate terminator is pushed and truncated again when the terminator
completes, so the message keeps its final CRLF and never grows by more
than the octets consumed).  Returns the new phase, the grown buffer, the
unconsumed input and the completion flag. -/
def feedData : DPhase → List Char → List Char → DPhase × List Char × List Char × Bool
  | ph, msg, [] => (ph, msg, [], false)
  | .lineStart, msg, c :: rest =>
      if c = '.' then feedData .dot msg rest
      else if c = '\r' then feedData .seenCr (msg ++ [c]) rest
      else feedData .midLine (msg ++ [c]) rest
  | .midLine, msg, c :: rest =>
      if c = '\r' then feedData .seenCr (msg ++ [c]) rest
      else feedData .midLine (msg ++ [c]) rest
  | .seenCr, msg, c :: rest =>
      if c = '\n' then feedData .lineStart (msg ++ [c]) rest
      else if c = '\r' then feedData .seenCr (msg ++ [c]) rest
      else feedData .midLine (msg ++ [c]) rest
  | .dot, msg, c :: rest =>
      if c = '\r' then feedData .dotCr (msg ++ [c]) rest
      else feedData .midLine (msg ++ [c]) rest
  | .dotCr, msg, c :: rest =>
      if c = '\n' then (.dotCr, msg.dropLast, rest, true)
      else if c = '\r' then feedData .seenCr (msg ++ [c]) rest
      else feedData .midLine (msg ++ [c]) rest

/-- The BDAT receiver (`BdatReceiver` of smtp-proto, modelled from spec
§4.A): copies exactly the announced octet count, resumably. -/
structure BdatReceiver where
  remaining : Nat
  is_last : Bool
  deriving Repr, DecidableEq

/-- One ingest step of the BDAT receiver: take `min remaining input` octets
into the buffer; complete when the count is exhausted. -/
def feedBdat (br : BdatReceiver) (msg input : List Char) :
    BdatReceiver × List Char × List Char × Bool :=
  if br.remaining ≤ input.length then
    (⟨0, br.is_last⟩, msg ++ input.take br.remaining, input.drop br.remaining, true)
  else
    (⟨br.remaining - input.length, br.is_last⟩, msg ++ input, [], false)

/-- The discard receiver for the `DataTooLarge` state
(`DummyDataReceiver` of smtp-proto, modelled from spec §4.A): drains a DATA
body up to its terminator (inheriting the partial terminator state), or
exactly the announced octet count of an oversized BDAT chunk. -/
inductive DummyDataReceiver where
  | dataDrain (phase : DPhase)
  | bdatDrain (remaining : Nat)
  deriving Repr, DecidableEq

/-- One ingest step of the discard receiver: same framing as `feedData` /
`feedBdat`, without retaining any byte. -/
def drainDummy : DummyDataReceiver → List Char → DummyDataReceiver × List Char × Bool
  | .dataDrain ph, input =>
      match feedData ph [] input with
      | (ph2, _, rest, done) => (.dataDrain ph2, rest, done)
  | .bdatDrain n, input =>
      if n ≤ input.length then (.bdatDrain 0, input.drop n, true)
      else (.bdatDrain (n - input.length), [], false)

/-- Splits the input at the first LF: the characters before it and the rest
after it. -/
def findLf : List Char → Option (List Char × List Char)
  | [] => none
  | c :: rest =>
      if c = '\n' then some ([], rest)
      else (findLf rest).map (fun pr => (c :: pr.1, pr.2))

/-- The command-line receiver of the `Request` state (smtp-proto's request
receiver, modelled from spec §4.A/§4.B): accumulates until CRLF,
resumably. -/
structure RequestReceiver where
  buf : List Char
  deriving Repr, DecidableEq

/-- Modelled `MAX_LINE_LENGTH` of smtp-proto. -/
def maxLineLength : Nat := 2048

/-- Outcome of one ingest step of the command-line receiver. -/
inductive ReqOutcome where
  | needsMore (buf : List Char)
  | tooLong (rest : List Char)
  | line (line : List Char) (rest : List Char)
  deriving Repr, DecidableEq

/-- One ingest step of the command-line receiver: consume up to the next
LF; on no LF, buffer everything and report `NeedsMoreData`; on an overlong
line report `ResponseTooLong`; otherwise yield the line (trailing CR
stripped) and the unconsumed rest. -/
def RequestReceiver.ingestLine (rr : RequestReceiver) (input : List Char) : ReqOutcome :=
  match findLf input with
  | none => .needsMore (rr.buf ++ input)
  | some (pre, rest) =>
      let raw := rr.buf ++ pre
      if maxLineLength < raw.length then .tooLong rest
      else if raw.getLast? = some '\r' then .line raw.dropLast rest
      else .line raw rest

/-- Splits a line into its space-separated words (the accumulator holds the
current word reversed). -/
def splitWordsAux : List Char → List Char → List (List Char)
  | acc, [] => if acc.isEmpty then [] else [acc.reverse]
  | acc, c :: rest =>
      if c = ' ' then
        if acc.isEmpty then splitWordsAux [] rest
        else acc.reverse :: splitWordsAux [] rest
      else splitWordsAux (c :: acc) rest

/-- ASCII uppercasing of a word (SMTP verbs are case-insensitive). -/
def upperWord (l : List Char) : List Char := l.map Char.toUpper

/-- Parses a decimal numeral (the BDAT chunk size). -/
def digitsToNat? (l : List Char) : Option Nat :=
  if l.isEmpty then none
  else l.foldl
    (fun acc? c => acc?.bind
      (fun acc => if c.isDigit then some (acc * 10 + (c.toNat - 48)) else none))
    (some 0)

/-- Modelled from the spec (§4.B): the commands of the smtp-proto parser
that the session-level claims below exercise.  (`Mail`, `Rcpt`, `Ehlo`,
`Auth` and the rest of the grammar dispatch to handlers outside `src/` and
are not modelled; see the section comment.) -/
inductive Request where
  | data
  | bdat (chunk_size : Nat) (is_last : Bool)
  | startTls
  | rset
  | quit
  | noop
  deriving Repr, DecidableEq

/-- Modelled from the spec (§4.B): the parse-error categories the modelled
grammar subset can produce. -/
inductive ParseErr where
  | unknown
  | malformed (hint : String)
  deriving Repr, DecidableEq

/-- Modelled from the spec (§4.B): tokenize one request line into a typed
command or a categorized parse error; verbs are case-insensitive, lines
with an unrecognized verb are the unknown-command error. -/
def parseRequest (line : List Char) : Except ParseErr Request :=
  match splitWordsAux [] line with
  | [] => .error .unknown
  | verb :: args =>
    let v := upperWord verb
    if v = "DATA".data then .ok .data
    else if v = "STARTTLS".data then .ok .startTls
    else if v = "RSET".data then .ok .rset
    else if v = "QUIT".data then .ok .quit
    else if v = "NOOP".data then .ok .noop
    else if v = "BDAT".data then
      match args with
      | [n] =>
          match digitsToNat? n with
          | some k => .ok (.bdat k false)
          | none => .error (.malformed "chunk size")
      | [n, lastTok] =>
          if upperWord lastTok = "LAST".data then
            match digitsToNat? n with
            | some k => .ok (.bdat k true)
            | none => .error (.malformed "chunk size")
          else .error (.malformed "chunk size")
      | _ => .error (.malformed "chunk size")
    else .error .unknown

/-- The driver state (`State` in the smtp core crate, spec §3): `Request`,
`Data`, `Bdat`, `DataTooLarge`, `RequestTooLarge`.  The `Sasl` variant and
the `None` / `Accepted` sentinels are omitted (see the section comment). -/
inductive State where
  | request (r : RequestReceiver)
  | data (phase : DPhase)
  | bdat (r : BdatReceiver)
  | dataTooLarge (r : DummyDataReceiver)
  | requestTooLarge
  deriving Repr, DecidableEq

/-- `State::default()`: the `Request` state with a fresh receiver. -/
def State.default : State := .request ⟨[]⟩

/-- The session bound to one connection (spec §3): protocol, transport TLS
flag, TLS acceptor capability, connection parameters, transactional data
and the driver state. -/
structure Session where
  protocol : Protocol
  stream_is_tls : Bool
  acceptor_is_tls : Bool
  params : SmtpParams
  data : SessionData
  state : State
  deriving Repr, DecidableEq

/-- The collaborator answers `ingest` can observe (spec §6): the throttling
verdict consulted by `can_send_data` and the reply of
`queue_message` (empty means "disconnect now"). -/
structure IngestEnv where
  throttle_ok : Bool
  queue_reply : String
  deriving Repr, DecidableEq

/-- Modelled from the spec: `can_send_data` (defined in the smtp crate's
data module, not under `src/`): requires a prior MAIL FROM and at least one
accepted recipient (spec §3 invariant 1) and consults throttling (spec
§4.C); on refusal it writes an error reply itself and returns false. -/
def canSendData (env : IngestEnv) (d : SessionData) : Bool × List Event :=
  if d.mail_from.isNone then
    (false, [.write "503 5.5.1 MAIL is required first.\r\n"])
  else if d.rcpt_to.isEmpty then
    (false, [.write "503 5.5.1 RCPT is required first.\r\n"])
  else if env.throttle_ok then (true, [])
  else (false, [.write "451 4.4.5 Rate limit exceeded, try again later.\r\n"])

/-- The result of `ingest`: `Ok(true)` (keep reading), `Err(())`
(disconnect), or `Ok(false)` (STARTTLS hand-over to the listener). -/
inductive IngestResult where
  | ok
  | disconnect
  | tlsHandover
  deriving Repr, DecidableEq

/-- The effect of one iteration of the `'outer` dispatch loop: stop with
`NeedsMoreData` preserved (`halt`), return to the caller (`ret`: QUIT,
queue-requested disconnect, or the STARTTLS hand-over), or continue looping
(`cont`) with the updated session, the unconsumed input and the events this
iteration wrote. -/
inductive LoopAction where
  | halt (s : Session)
  | ret (s : Session) (evs : List Event) (r : IngestResult)
  | cont (s : Session) (rest : List Char) (evs : List Event)
  deriving Repr, DecidableEq

/-- One iteration of the `'outer` dispatch loop of `Session::ingest`
(session.rs lines 30-321), one case per driver state; `bytesLen` is the
length of the **whole** input slice of this `ingest` call (the
`bytes.len()` the Data-state size gate reads), `rem` the not yet consumed
part of it. -/
def stepOnce (env : IngestEnv) (bytesLen : Nat) (s : Session) (rem : List Char) :
    LoopAction :=
  match s.state with
  | .request rr =>
    match rr.ingestLine rem with
    | .needsMore buf => .halt { s with state := .request ⟨buf⟩ }
    | .tooLong rest => .cont { s with state := .requestTooLarge } rest []
    | .line line rest =>
      match parseRequest line with
      | .error .unknown =>
          .cont { s with state := .request ⟨[]⟩ } rest
            [.write "500 5.5.1 Invalid command.\r\n"]
      | .error (.malformed hint) =>
          .cont { s with state := .request ⟨[]⟩ } rest
            [.write ("501 5.5.2 Syntax error, expected: " ++ hint ++ "\r\n")]
      | .ok .noop =>
          .cont { s with state := .request ⟨[]⟩ } rest [.write "250 2.0.0 OK\r\n"]
      | .ok .rset =>
          .cont { s with data := s.data.reset, state := .request ⟨[]⟩ } rest
            [.write "250 2.0.0 OK\r\n"]
      | .ok .quit => .ret s [.write "221 2.0.0 Bye.\r\n"] .disconnect
      | .ok .startTls =>
          if !s.stream_is_tls then
            if s.acceptor_is_tls then
              .ret { s with state := State.default }
                [.write "220 2.0.0 Ready to start TLS.\r\n"] .tlsHandover
            else
              .cont { s with state := .request ⟨[]⟩ } rest
                [.write "502 5.7.0 TLS not available.\r\n"]
          else
            .cont { s with state := .request ⟨[]⟩ } rest
              [.write "504 5.7.4 Already in TLS mode.\r\n"]
      | .ok .data =>
          match canSendData env s.data with
          | (true, _) =>
              .cont { s with data := { s.data with message := [] }
                             state := .data .lineStart } rest
                [.write "354 Start mail input; end with <CRLF>.<CRLF>\r\n"]
          | (false, errEvents) => .cont { s with state := .request ⟨[]⟩ } rest errEvents
      | .ok (.bdat chunk_size is_last) =>
          if chunk_size + s.data.message.length < s.params.max_message_size then
            .cont { s with state := .bdat ⟨chunk_size, is_last⟩ } rest []
          else
            -- Chunk is too large, ignore.
            .cont { s with state := .dataTooLarge (.bdatDrain chunk_size) } rest []
  | .data phase =>
    if s.data.message.length + bytesLen < s.params.max_message_size then
      match feedData phase s.data.message rem with
      | (_, msg2, rest, true) =>
          let num_rcpts := s.data.rcpt_to.length
          if env.queue_reply = "" then
            -- Disconnect requested
            .ret { s with data := { s.data with message := msg2 } } [] .disconnect
          else
            .cont { s with data := SessionData.reset { s.data with message := msg2 }
                           state := State.default } rest
              (match s.protocol with
                | .smtp => [.write env.queue_reply]
                | .lmtp => List.replicate num_rcpts (.write env.queue_reply))
      | (phase2, msg2, _, false) =>
          .halt { s with data := { s.data with message := msg2 }, state := .data phase2 }
    else
      .cont { s with state := .dataTooLarge (.dataDrain phase) } rem []
  | .bdat br =>
    match feedBdat br s.data.message rem with
    | (_, msg2, rest, true) =>
        let d2 := { s.data with message := msg2 }
        match canSendData env d2 with
        | (true, _) =>
            if br.is_last then
              let num_rcpts := d2.rcpt_to.length
              if env.queue_reply = "" then
                -- Disconnect requested
                .ret { s with data := d2 } [] .disconnect
              else
                .cont { s with data := SessionData.reset d2, state := State.default }
                  rest
                  (match s.protocol with
                    | .smtp => [.write env.queue_reply]
                    | .lmtp => List.replicate num_rcpts (.write env.queue_reply))
            else
              .cont { s with data := d2, state := State.default } rest
                [.write "250 2.6.0 Chunk accepted.\r\n"]
        | (false, errEvents) =>
            .cont { s with data := { d2 with message := [] }, state := State.default }
              rest errEvents
    | (br2, msg2, _, false) =>
        .halt { s with data := { s.data with message := msg2 }, state := .bdat br2 }
  | .dataTooLarge dr =>
    match drainDummy dr rem with
    | (_, rest, true) =>
        .cont { s with data := { s.data with message := [] }, state := State.default }
          rest [.write "552 5.3.4 Message too big for system.\r\n"]
    | (dr2, _, false) => .halt { s with state := .dataTooLarge dr2 }
  | .requestTooLarge =>
    match findLf rem with
    | some (_, rest) =>
        .cont { s with state := State.default } rest
          [.write "554 5.3.4 Line is too long.\r\n"]
    | none => .halt s

/-- The `'outer` dispatch loop itself: iterate `stepOnce`, accumulating
events, until a `halt` or `ret`.  The fuel only bounds the number of
iterations; `ingest` passes more fuel than any input can consume (every
iteration either consumes input or is one of at most two successive
non-consuming state transitions), so exhaustion acts like the
`NeedsMoreData` break. -/
def ingestLoop (env : IngestEnv) (bytesLen : Nat) :
    Nat -> Session -> List Char -> List Event -> Session × List Event × IngestResult
  | 0, s, _, evs => (s, evs, .ok)
  | fuel + 1, s, rem, evs =>
    match stepOnce env bytesLen s rem with
    | .halt s2 => (s2, evs, .ok)
    | .ret s2 evs2 r => (s2, evs ++ evs2, r)
    | .cont s2 rest evs2 => ingestLoop env bytesLen fuel s2 rest (evs ++ evs2)

/-- `Session::ingest` (session.rs lines 26-325): run the dispatch loop on
the byte slice with ample fuel. -/
def ingest (env : IngestEnv) (s : Session) (bytes : List Char) :
    Session × List Event × IngestResult :=
  ingestLoop env bytes.length (3 * bytes.length + 9) s bytes []

/-- The plain size bound of spec §3 invariant 3: the message buffer never
exceeds the configured maximum. -/
def MsgBound (s : Session) : Prop :=
  s.data.message.length ≤ s.params.max_message_size

/-- The inductive size invariant: the plain bound, strengthened in the
`Bdat` state by the receiver's outstanding octet count (the size gate of
the BDAT dispatch admitted the whole announced chunk). -/
def SizeInv (s : Session) : Prop :=
  MsgBound s ∧
  ∀ br, s.state = State.bdat br →
    s.data.message.length + br.remaining < s.params.max_message_size

/-! ### Concrete inputs used by the claim witnesses and counterexamples -/

/-- Connection parameters used by the concrete verification scenarios. -/
def wParams : SmtpParams :=
  { rcpt_max := 10, rcpt_dsn := true, rcpt_errors_max := 5, rcpt_errors_wait := 1
    max_message_size := 1024 }

/-- Transactional state with a sender already accepted. -/
def wData : SessionData :=
  { SessionData.init with mail_from := some (buildRcpt ⟨"s@example.org", 0, none⟩) }

/-- A plain recipient command. -/
def wRcpt : RcptTo := ⟨"User@Example.COM", 0, none⟩

/-- A second, distinct recipient command. -/
def wRcpt2 : RcptTo := ⟨"fresh@other.net", 0, none⟩

/-- `wData` with the recipient of `wRcpt` already accepted. -/
def wDataDup : SessionData := { wData with rcpt_to := [buildRcpt wRcpt] }

/-- Collaborator oracle: no filtering, no directory, relay denied. -/
def wEnvRelayDenied : RcptEnv :=
  { rcpt_script := none, rewrite_configured := false, milter_on_rcpt := false
    milter_result := none, mta_hook_result := none, rewrite_result := none
    directory := none, relay_allowed := some false, is_allowed := true }

/-- Collaborator oracle: no filtering, no directory, relay allowed. -/
def wEnvRelayAllowed : RcptEnv :=
  { rcpt_script := none, rewrite_configured := false, milter_on_rcpt := false
    milter_result := none, mta_hook_result := none, rewrite_result := none
    directory := none, relay_allowed := some true, is_allowed := true }

/-- Collaborator oracle: an RCPT Sieve script that accepts with a
`SetEnvelope "from"` modification, then a milter bound to the RCPT stage
that rejects the recipient. -/
def wEnvSieveMilter : RcptEnv :=
  { rcpt_script := some (.accept [.setEnvelope "from" "other@rewritten.example"])
    rewrite_configured := false, milter_on_rcpt := true
    milter_result := some "550 5.7.1 Rejected by milter.\r\n", mta_hook_result := none
    rewrite_result := none, directory := none, relay_allowed := some true
    is_allowed := true }

/-- Collaborator oracle: a rewrite rule that rewrites every recipient to
`USER@Example.com`, colliding with the recipient of `wRcpt`. -/
def wEnvRewrite : RcptEnv :=
  { rcpt_script := none, rewrite_configured := true, milter_on_rcpt := false
    milter_result := none, mta_hook_result := none
    rewrite_result := some "USER@example.com", directory := none
    relay_allowed := some true, is_allowed := true }

/-- Ingest collaborators: throttling permitted, queue replies with a
concrete acceptance line. -/
def wEnvIngest : IngestEnv :=
  { throttle_ok := true, queue_reply := "250 2.0.0 Queued ok.\r\n" }

/-- Ingest collaborators: the queue requests a disconnect (empty reply). -/
def wEnvIngestEmpty : IngestEnv := { throttle_ok := true, queue_reply := "" }

/-- A plaintext SMTP session with a TLS-capable acceptor, a sender and one
accepted recipient, in the default `Request` state. -/
def wSessionSmtp : Session :=
  { protocol := .smtp
    stream_is_tls := false
    acceptor_is_tls := true
    params := wParams
    data := wDataDup
    state := State.default }

/-- `wSessionSmtp` with a 10-octet message size limit. -/
def wSessionSmall : Session :=
  { wSessionSmtp with params := { wParams with max_message_size := 10 } }

/-- An LMTP session with two accepted recipients. -/
def wSessionLmtp : Session :=
  { wSessionSmtp with
    protocol := .lmtp
    data := { wDataDup with rcpt_to := [buildRcpt wRcpt, buildRcpt wRcpt2] } }

/-- `wSessionSmtp` on a stream that already runs TLS. -/
def wSessionTls : Session := { wSessionSmtp with stream_is_tls := true }

/-- `wSessionSmtp` without a TLS-capable acceptor. -/
def wSessionNoAcceptor : Session := { wSessionSmtp with acceptor_is_tls := false }

/-- `wSessionSmtp` inside DATA at the start of the body. -/
def wSessionData : Session := { wSessionSmtp with state := .data .lineStart }

/-- `wSessionSmall` inside DATA at the start of the body. -/
def wSessionDataSmall : Session := { wSessionSmall with state := .data .lineStart }

/-- `wSessionLmtp` inside DATA at the start of the body. -/
def wSessionDataLmtp : Session := { wSessionLmtp with state := .data .lineStart }

/-- `wSessionSmtp` inside the last announced BDAT chunk of five octets. -/
def wSessionBdat : Session := { wSessionSmtp with state := .bdat ⟨5, true⟩ }

/-- `wSessionSmtp` discarding an oversized DATA body with three octets
still buffered. -/
def wSessionDrain : Session :=
  { wSessionSmtp with
    state := .dataTooLarge (.dataDrain .lineStart)
    data := { wDataDup with message := "abc".data } }

/-- A fully populated transactional state, for observing what `reset`
clears and what it keeps. -/
def wDataFull : SessionData :=
  { mail_from := some (buildRcpt ⟨"s@x", 0, none⟩)
    spf_mail_from := some "pass"
    rcpt_to := [buildRcpt wRcpt]
    message := "m".data
    priority := 3
    delivery_by := 5
    future_release := 7
    helo_domain := "mx.example"
    authenticated_as := "user"
    rcpt_errors := 2
    session_id := 99 }

section StageLemmas

theorem apply_envelope_modification_set_rcpt_to (d : SessionData) (X : List SessionAddress)
    (n v : String) :
    SessionData.apply_envelope_modification { d with rcpt_to := X } n v
      = { d.apply_envelope_modification n v with rcpt_to := X } := by
  unfold SessionData.apply_envelope_modification
  split <;> rfl

theorem applyModifications_set_rcpt_to (mods : List ScriptModification) (d : SessionData)
    (X : List SessionAddress) :
    applyModifications { d with rcpt_to := X } mods
      = { applyModifications d mods with rcpt_to := X } := by
  induction mods generalizing d with
  | nil => rfl
  | cons m ms ih =>
    cases m with
    | setEnvelope n v =>
      simp only [applyModifications, List.foldl_cons] at *
      rw [apply_envelope_modification_set_rcpt_to, ih]
    | other =>
      simp only [applyModifications, List.foldl_cons] at *
      exact ih d

theorem sieveApplied_set_rcpt_to (env : RcptEnv) (d : SessionData) (X : List SessionAddress) :
    sieveApplied env { d with rcpt_to := X } = { sieveApplied env d with rcpt_to := X } := by
  unfold sieveApplied
  cases h : env.rcpt_script with
  | none => rfl
  | some r => cases r <;> simp [applyModifications_set_rcpt_to]

theorem apply_envelope_modification_rcpt_to (d : SessionData) (n v : String) :
    (d.apply_envelope_modification n v).rcpt_to = d.rcpt_to := by
  unfold SessionData.apply_envelope_modification
  split <;> rfl

theorem applyModifications_rcpt_to (mods : List ScriptModification) (d : SessionData) :
    (applyModifications d mods).rcpt_to = d.rcpt_to := by
  induction mods generalizing d with
  | nil => rfl
  | cons m ms ih =>
    cases m with
    | setEnvelope n v =>
      simp only [applyModifications, List.foldl_cons] at *
      rw [ih, apply_envelope_modification_rcpt_to]
    | other =>
      simp only [applyModifications, List.foldl_cons] at *
      exact ih d

theorem sieveApplied_rcpt_to (env : RcptEnv) (d : SessionData) :
    (sieveApplied env d).rcpt_to = d.rcpt_to := by
  unfold sieveApplied
  cases h : env.rcpt_script with
  | none => rfl
  | some r => cases r <;> simp [applyModifications_rcpt_to]

theorem eqv_self (r : SessionAddress) : r.eqv r = true := by
  simp [SessionAddress.eqv]

theorem lastRcpt_concat (d : SessionData) (l : List SessionAddress) (r : SessionAddress)
    (hl : d.rcpt_to = l ++ [r]) : d.lastRcpt = r := by
  simp [SessionData.lastRcpt, hl, List.getLast?_concat]

theorem filter_concat_eqv_length (l : List SessionAddress) (r : SessionAddress) :
    ((l ++ [r]).filter (fun x => x.eqv r)).length
      = (l.filter (fun x => x.eqv r)).length + 1 := by
  simp [List.filter_append, eqv_self]

/-- The rewrite step only replaces the appended last entry (or leaves the
state unchanged). -/
theorem rcpt_rewrite_cases (env : RcptEnv) (d : SessionData) (l : List SessionAddress)
    (r : SessionAddress) (hl : d.rcpt_to = l ++ [r]) :
    ∃ r2, rcpt_rewrite env d = { d with rcpt_to := l ++ [r2] } := by
  obtain ⟨mf, spf, rc, msg, pr, db, fr, helo, auth, errs, sid⟩ := d
  simp only at hl
  subst hl
  unfold rcpt_rewrite
  cases hr : env.rewrite_result with
  | none => exact ⟨r, rfl⟩
  | some new_address =>
      dsimp only
      by_cases hat : containsChar new_address '@'
      · rw [if_pos hat]
        refine ⟨{ (SessionData.mk mf spf (l ++ [r]) msg pr db fr helo auth errs
                    sid).lastRcpt with
                  address_lcase := (toLowercase new_address)
                  domain := domainPart (toLowercase new_address)
                  address := new_address }, ?_⟩
        simp [SessionData.setLastRcpt, List.dropLast_concat]
      · rw [if_neg hat]
        exact ⟨r, rfl⟩

/-- The re-dedup check either pops the colliding last entry and collapses to
250, or passes with no earlier entry equivalent to the last one. -/
theorem rcpt_dedup_cases (d : SessionData) (l : List SessionAddress)
    (r2 : SessionAddress) (hl : d.rcpt_to = l ++ [r2]) :
    rcpt_dedup d = .inl ⟨{ d with rcpt_to := l }, [.write "250 2.1.5 OK\r\n"], true⟩ ∨
    (rcpt_dedup d = .inr d ∧ (l.filter (fun x => x.eqv r2)).length = 0) := by
  obtain ⟨mf, spf, rc, msg, pr, db, fr, helo, auth, errs, sid⟩ := d
  simp only at hl
  subst hl
  unfold rcpt_dedup
  rw [show (SessionData.mk mf spf (l ++ [r2]) msg pr db fr helo auth errs sid).lastRcpt = r2
        from lastRcpt_concat _ l r2 rfl]
  split
  · next hc => exact Or.inl (by simp [SessionData.popRcpt])
  · next hc =>
      rw [show (SessionData.mk mf spf (l ++ [r2]) msg pr db fr helo auth errs sid).rcpt_to
            = l ++ [r2] from rfl, filter_concat_eqv_length] at hc
      exact Or.inr ⟨rfl, by omega⟩

/-- Outcomes of the milter / MTA-hook / rewrite / re-dedup block on a state
whose recipient list ends with the tentatively appended entry: either an
early reply with that entry popped, or continuation with the (possibly
rewritten) entry still appended and no earlier entry equivalent to it. -/
theorem rcpt_filter_rest_cases (env : RcptEnv) (d : SessionData) (l : List SessionAddress)
    (r : SessionAddress) (hl : d.rcpt_to = l ++ [r]) :
    (∃ w, rcpt_filter_rest env d = .inl ⟨{ d with rcpt_to := l }, [.write w], true⟩) ∨
    (∃ r', rcpt_filter_rest env d = .inr { d with rcpt_to := l ++ [r'] } ∧
           (l.filter (fun x => x.eqv r')).length = 0) := by
  unfold rcpt_filter_rest
  cases hm : env.milter_result with
  | some m =>
      refine Or.inl ⟨m, ?_⟩
      obtain ⟨mf, spf, rc, msg, pr, db, fr, helo, auth, errs, sid⟩ := d
      simp only at hl
      subst hl
      simp [SessionData.popRcpt]
  | none =>
  cases hh : env.mta_hook_result with
  | some m =>
      refine Or.inl ⟨m, ?_⟩
      obtain ⟨mf, spf, rc, msg, pr, db, fr, helo, auth, errs, sid⟩ := d
      simp only at hl
      subst hl
      simp [SessionData.popRcpt]
  | none =>
      obtain ⟨r2, hrw⟩ := rcpt_rewrite_cases env d l r hl
      rw [hrw]
      have hl2 : ({ d with rcpt_to := l ++ [r2] } : SessionData).rcpt_to = l ++ [r2] := rfl
      rcases rcpt_dedup_cases _ l r2 hl2 with hdd | ⟨hdd, hfil⟩
      · rw [hdd]
        exact Or.inl ⟨"250 2.1.5 OK\r\n", rfl⟩
      · rw [hdd]
        exact Or.inr ⟨r2, rfl, hfil⟩

/-- Outcomes of the whole filtering stage on a freshly pushed recipient:
either an early reply that restores the recipient list (only the Sieve
`Accept` modifications survive), or continuation with exactly one entry
appended. -/
theorem rcpt_filter_stage_cases (env : RcptEnv) (d : SessionData) (r : SessionAddress) :
    (∃ w, rcpt_filter_stage env (d.pushRcpt r) =
        .inl ⟨{ sieveApplied env d with rcpt_to := d.rcpt_to }, [.write w], true⟩) ∨
    (∃ r', rcpt_filter_stage env (d.pushRcpt r) =
        .inr { sieveApplied env d with rcpt_to := d.rcpt_to ++ [r'] } ∧
        (r' = r ∨ (d.rcpt_to.filter (fun x => x.eqv r')).length = 0)) := by
  unfold rcpt_filter_stage
  by_cases hg : (env.rcpt_script.isSome || env.rewrite_configured || env.milter_on_rcpt) = true
  · rw [if_pos hg]
    cases hs : env.rcpt_script with
    | none =>
        dsimp only
        have hl : (d.pushRcpt r).rcpt_to = d.rcpt_to ++ [r] := rfl
        rcases rcpt_filter_rest_cases env _ d.rcpt_to r hl with ⟨w, hf⟩ | ⟨r', hf, hfil⟩
        · rw [hf]
          exact Or.inl ⟨w, by simp [sieveApplied, hs, SessionData.pushRcpt]⟩
        · rw [hf]
          refine Or.inr ⟨r', ?_, Or.inr hfil⟩
          simp [sieveApplied, hs, SessionData.pushRcpt]
    | some sr =>
      cases sr with
      | reject m =>
          dsimp only
          refine Or.inl ⟨m, ?_⟩
          simp [sieveApplied, hs, SessionData.pushRcpt, SessionData.popRcpt,
            List.dropLast_concat]
      | other =>
          dsimp only
          have hl : (d.pushRcpt r).rcpt_to = d.rcpt_to ++ [r] := rfl
          rcases rcpt_filter_rest_cases env _ d.rcpt_to r hl with ⟨w, hf⟩ | ⟨r', hf, hfil⟩
          · rw [hf]
            exact Or.inl ⟨w, by simp [sieveApplied, hs, SessionData.pushRcpt]⟩
          · rw [hf]
            refine Or.inr ⟨r', ?_, Or.inr hfil⟩
            simp [sieveApplied, hs, SessionData.pushRcpt]
      | accept mods =>
          dsimp only
          rw [show d.pushRcpt r = { d with rcpt_to := d.rcpt_to ++ [r] } from rfl,
            applyModifications_set_rcpt_to]
          have hl : ({ applyModifications d mods with rcpt_to := d.rcpt_to ++ [r] }
              : SessionData).rcpt_to = d.rcpt_to ++ [r] := rfl
          rcases rcpt_filter_rest_cases env _ d.rcpt_to r hl with ⟨w, hf⟩ | ⟨r', hf, hfil⟩
          · rw [hf]
            exact Or.inl ⟨w, by simp [sieveApplied, hs]⟩
          · rw [hf]
            refine Or.inr ⟨r', ?_, Or.inr hfil⟩
            simp [sieveApplied, hs]
  · rw [if_neg hg]
    have hs : env.rcpt_script = none := by
      cases h : env.rcpt_script with
      | none => rfl
      | some sr => rw [h] at hg; simp at hg
    refine Or.inr ⟨r, ?_, Or.inl rfl⟩
    simp [sieveApplied, hs, SessionData.pushRcpt]

/-- `rcpt_error` in closed form: counter incremented, tarpit sleep then the
status line, the 421 escalation exactly when the incremented counter has
reached the budget, and the disconnect signal in that same case. -/
theorem rcpt_error_eq (p : SmtpParams) (d : SessionData) (w : String) :
    rcpt_error p d w =
      ⟨{ d with rcpt_errors := d.rcpt_errors + 1 },
       [.sleep p.rcpt_errors_wait, .write w] ++
         (if d.rcpt_errors + 1 < p.rcpt_errors_max then []
          else [.write "421 4.3.0 Too many errors, disconnecting.\r\n"]),
       decide (d.rcpt_errors + 1 < p.rcpt_errors_max)⟩ := by
  unfold rcpt_error
  split
  · next h =>
      have h' : d.rcpt_errors + 1 < p.rcpt_errors_max := h
      rw [if_pos h', decide_eq_true h']
      rfl
  · next h =>
      have h' : ¬(d.rcpt_errors + 1 < p.rcpt_errors_max) := h
      rw [if_neg h', decide_eq_false h']
      rfl

/-- Outcomes of the verification and rate-limit stages on a state whose
recipient list ends with the tentative entry: acceptance (state kept), a
direct transient refusal with the entry popped, or one of the two 550
refusals through the tarpit error path with the entry popped. -/
theorem rcpt_verify_cases (p : SmtpParams) (env : RcptEnv) (d : SessionData)
    (l : List SessionAddress) (r' : SessionAddress) (hl : d.rcpt_to = l ++ [r']) :
    rcpt_verify_stage p env d = ⟨d, [.write "250 2.1.5 OK\r\n"], true⟩ ∨
    (∃ w, rcpt_verify_stage p env d = ⟨{ d with rcpt_to := l }, [.write w], true⟩ ∧
          (w = "451 4.4.3 Unable to verify address at this time.\r\n" ∨
           w = "451 4.4.5 Rate limit exceeded, try again later.\r\n")) ∨
    (∃ w, (w = "550 5.1.2 Mailbox does not exist.\r\n" ∨
           w = "550 5.1.2 Relay not allowed.\r\n") ∧
          rcpt_verify_stage p env d = rcpt_error p { d with rcpt_to := l } w) := by
  have hpop : d.popRcpt = { d with rcpt_to := l } := by
    simp [SessionData.popRcpt, hl, List.dropLast_concat]
  have hrate : rcpt_rate_stage env d = ⟨d, [.write "250 2.1.5 OK\r\n"], true⟩ ∨
      rcpt_rate_stage env d
        = ⟨{ d with rcpt_to := l },
           [.write "451 4.4.5 Rate limit exceeded, try again later.\r\n"], true⟩ := by
    unfold rcpt_rate_stage
    by_cases ha : env.is_allowed = true
    · rw [if_pos ha]
      exact Or.inl rfl
    · rw [if_neg ha, hpop]
      exact Or.inr rfl
  unfold rcpt_verify_stage
  cases hdir : env.directory with
  | some dir =>
      dsimp only
      cases hld : dir.is_local_domain d.lastRcpt.domain with
      | some b =>
        cases b with
        | true =>
            dsimp only
            cases hla : dir.is_local_address d.lastRcpt.address_lcase with
            | some is_local =>
                dsimp only
                cases is_local with
                | false =>
                    rw [show (!false) = true from rfl, if_pos rfl, hpop]
                    exact Or.inr (Or.inr ⟨_, Or.inl rfl, rfl⟩)
                | true =>
                    rw [show (!true) = false from rfl, if_neg (by simp)]
                    rcases hrate with h | h <;> rw [h]
                    · exact Or.inl rfl
                    · exact Or.inr (Or.inl ⟨_, rfl, Or.inr rfl⟩)
            | none =>
                rw [hpop]
                exact Or.inr (Or.inl ⟨_, rfl, Or.inl rfl⟩)
        | false =>
            dsimp only
            by_cases hrel : env.relay_allowed.getD false = true
            · rw [if_neg (by simp [hrel])]
              rcases hrate with h | h <;> rw [h]
              · exact Or.inl rfl
              · exact Or.inr (Or.inl ⟨_, rfl, Or.inr rfl⟩)
            · rw [if_pos (by simp [Bool.eq_false_iff.mpr hrel]), hpop]
              exact Or.inr (Or.inr ⟨_, Or.inr rfl, rfl⟩)
      | none =>
          rw [hpop]
          exact Or.inr (Or.inl ⟨_, rfl, Or.inl rfl⟩)
  | none =>
      dsimp only
      by_cases hrel : env.relay_allowed.getD false = true
      · rw [if_neg (by simp [hrel])]
        rcases hrate with h | h <;> rw [h]
        · exact Or.inl rfl
        · exact Or.inr (Or.inl ⟨_, rfl, Or.inr rfl⟩)
      · rw [if_pos (by simp [Bool.eq_false_iff.mpr hrel]), hpop]
        exact Or.inr (Or.inr ⟨_, Or.inr rfl, rfl⟩)

/-- Every outcome of `handle_rcpt_to`: an early single-line reply with the
session data untouched (tagged with the precondition that fired), a
post-filtering single-line reply with the recipient list restored and any
Sieve envelope modifications kept, one of the two 550 refusals through the
tarpit error path (same restoration), or acceptance with exactly one new
recipient appended that collides with no earlier entry. -/
theorem handle_rcpt_to_cases (p : SmtpParams) (env : RcptEnv) (d : SessionData)
    (rto : RcptTo) :
    (∃ w, handle_rcpt_to p env d rto = ⟨d, [.write w], true⟩ ∧
       (d.mail_from.isNone = true ∨ p.rcpt_max ≤ d.rcpt_to.length ∨
        ((rto.flags &&& dsnNotifyMask ≠ 0 || rto.orcpt.isSome) && !p.rcpt_dsn) = true ∨
        d.rcpt_to.any (fun x => x.eqv (buildRcpt rto)) = true)) ∨
    (∃ w, handle_rcpt_to p env d rto =
        ⟨{ sieveApplied env d with rcpt_to := d.rcpt_to }, [.write w], true⟩) ∨
    (∃ w, (w = "550 5.1.2 Mailbox does not exist.\r\n" ∨
           w = "550 5.1.2 Relay not allowed.\r\n") ∧
       handle_rcpt_to p env d rto =
         rcpt_error p { sieveApplied env d with rcpt_to := d.rcpt_to } w) ∨
    (∃ r', handle_rcpt_to p env d rto =
        ⟨{ sieveApplied env d with rcpt_to := d.rcpt_to ++ [r'] },
         [.write "250 2.1.5 OK\r\n"], true⟩ ∧
       d.rcpt_to.length < p.rcpt_max ∧
       (d.rcpt_to.filter (fun x => x.eqv r')).length = 0) := by
  unfold handle_rcpt_to
  split
  · next h => exact Or.inl ⟨_, rfl, Or.inl h⟩
  · next h1 =>
    split
    · next h2 => exact Or.inl ⟨_, rfl, Or.inr (Or.inl h2)⟩
    · next h2 =>
      split
      · next h3 => exact Or.inl ⟨_, rfl, Or.inr (Or.inr (Or.inl h3))⟩
      · next h3 =>
        split
        · next h4 => exact Or.inl ⟨_, rfl, Or.inr (Or.inr (Or.inr h4))⟩
        · next h4 =>
          rcases rcpt_filter_stage_cases env d (buildRcpt rto) with ⟨w, hf⟩ | ⟨r', hf, hr'⟩
          · rw [hf]
            exact Or.inr (Or.inl ⟨w, rfl⟩)
          · rw [hf]
            rcases rcpt_verify_cases p env
                { sieveApplied env d with rcpt_to := d.rcpt_to ++ [r'] } d.rcpt_to r' rfl
              with hv | ⟨w, hv, hw⟩ | ⟨w, hw, hv⟩
            · dsimp only at hv ⊢
              rw [hv]
              refine Or.inr (Or.inr (Or.inr ⟨r', rfl, by omega, ?_⟩))
              rcases hr' with hrr | hfil
              · subst hrr
                have hany : d.rcpt_to.any (fun x => x.eqv (buildRcpt rto)) = false :=
                  Bool.not_eq_true _ |>.mp h4
                have : d.rcpt_to.filter (fun x => x.eqv (buildRcpt rto)) = [] := by
                  rw [List.filter_eq_nil_iff]
                  intro a ha
                  have := List.any_eq_false.mp hany a ha
                  simpa using this
                rw [this]
                rfl
              · exact hfil
            · dsimp only at hv ⊢
              rw [hv]
              exact Or.inr (Or.inl ⟨w, rfl⟩)
            · dsimp only at hv ⊢
              rw [hv]
              exact Or.inr (Or.inr (Or.inl ⟨w, hw, rfl⟩))

/-- `apply_envelope_modification` only (possibly) changes the MAIL FROM
field. -/
theorem apply_envelope_modification_shape (d : SessionData) (n v : String) :
    ∃ mf, d.apply_envelope_modification n v = { d with mail_from := mf } := by
  unfold SessionData.apply_envelope_modification
  split
  · exact ⟨_, rfl⟩
  · exact ⟨d.mail_from, rfl⟩

/-- The Sieve modification loop only (possibly) changes the MAIL FROM
field. -/
theorem applyModifications_shape (mods : List ScriptModification) (d : SessionData) :
    ∃ mf, applyModifications d mods = { d with mail_from := mf } := by
  induction mods generalizing d with
  | nil => exact ⟨d.mail_from, rfl⟩
  | cons m ms ih =>
    cases m with
    | setEnvelope n v =>
        simp only [applyModifications, List.foldl_cons]
        obtain ⟨mf1, h1⟩ := apply_envelope_modification_shape d n v
        obtain ⟨mf2, h2⟩ := ih (d.apply_envelope_modification n v)
        rw [show applyModifications (d.apply_envelope_modification n v) ms
              = List.foldl _ (d.apply_envelope_modification n v) ms from rfl] at h2
        rw [h2, h1]
        exact ⟨mf2, rfl⟩
    | other =>
        simp only [applyModifications, List.foldl_cons]
        exact ih d

/-- The Sieve stage only (possibly) changes the MAIL FROM field. -/
theorem sieveApplied_shape (env : RcptEnv) (d : SessionData) :
    ∃ mf, sieveApplied env d = { d with mail_from := mf } := by
  unfold sieveApplied
  cases h : env.rcpt_script with
  | none => exact ⟨d.mail_from, rfl⟩
  | some r =>
    cases r with
    | accept mods => exact applyModifications_shape mods d
    | reject m => exact ⟨d.mail_from, rfl⟩
    | other => exact ⟨d.mail_from, rfl⟩

theorem sieveApplied_rcpt_errors (env : RcptEnv) (d : SessionData) :
    (sieveApplied env d).rcpt_errors = d.rcpt_errors := by
  obtain ⟨mf, h⟩ := sieveApplied_shape env d
  rw [h]

/-- When the rewrite expression turns the tentative recipient into an
address whose lowercase form is already present, the filtering stage
collapses the command to a plain `250 2.1.5 OK` with the recipient list
restored (rcpt.rs lines 145-169). -/
theorem rcpt_filter_stage_rewrite_collision (env : RcptEnv) (d : SessionData)
    (na : String) (r : SessionAddress)
    (hscript : env.rcpt_script = none)
    (hrw : env.rewrite_configured = true)
    (hmil : env.milter_result = none)
    (hhook : env.mta_hook_result = none)
    (hre : env.rewrite_result = some na)
    (hat : containsChar na '@' = true)
    (hex : ∃ x ∈ d.rcpt_to, x.address_lcase = (toLowercase na)) :
    rcpt_filter_stage env (d.pushRcpt r) = .inl ⟨d, [.write "250 2.1.5 OK\r\n"], true⟩ := by
  obtain ⟨mf, spf, rc, msg, pr, db, fr, helo, auth, errs, sid⟩ := d
  obtain ⟨x, hx, hxl⟩ := hex
  simp only at hx
  unfold rcpt_filter_stage
  rw [if_pos (by simp [hrw])]
  rw [hscript]
  dsimp only
  unfold rcpt_filter_rest
  rw [hmil, hhook]
  dsimp only
  unfold rcpt_rewrite
  rw [hre]
  dsimp only
  rw [if_pos hat]
  rw [show (SessionData.mk mf spf rc msg pr db fr helo auth errs sid).pushRcpt r
        = SessionData.mk mf spf (rc ++ [r]) msg pr db fr helo auth errs sid
      from rfl]
  rw [show (SessionData.mk mf spf (rc ++ [r]) msg pr db fr helo auth errs sid).setLastRcpt
        { (SessionData.mk mf spf (rc ++ [r]) msg pr db fr helo auth errs sid).lastRcpt with
          address_lcase := (toLowercase na)
          domain := domainPart (toLowercase na)
          address := na }
        = SessionData.mk mf spf (rc ++
            [{ (SessionData.mk mf spf (rc ++ [r]) msg pr db fr helo auth errs
                sid).lastRcpt with
               address_lcase := (toLowercase na)
               domain := domainPart (toLowercase na)
               address := na }]) msg pr db fr helo auth errs sid
      from by simp [SessionData.setLastRcpt, List.dropLast_concat]]
  unfold rcpt_dedup
  rw [show ∀ r2 : SessionAddress,
        (SessionData.mk mf spf (rc ++ [r2]) msg pr db fr helo auth errs sid).lastRcpt = r2
      from fun r2 => lastRcpt_concat _ rc r2 rfl]
  rw [if_pos ?_]
  · simp [SessionData.popRcpt, List.dropLast_concat]
  · rw [show (SessionData.mk mf spf (rc ++ [_]) msg pr db fr helo auth errs sid).rcpt_to
          = rc ++ [_] from rfl, filter_concat_eqv_length]
    have hmem : x ∈ rc.filter (fun y => y.eqv
        { (SessionData.mk mf spf (rc ++ [r]) msg pr db fr helo auth errs sid).lastRcpt with
          address_lcase := (toLowercase na)
          domain := domainPart (toLowercase na)
          address := na }) := by
      refine List.mem_filter.mpr ⟨hx, ?_⟩
      simp [SessionAddress.eqv, hxl]
    have := List.length_pos.mpr (List.ne_nil_of_mem hmem)
    omega

end StageLemmas

section IngestLemmas

theorem findLf_length {input pre rest : List Char}
    (h : findLf input = some (pre, rest)) :
    pre.length + 1 + rest.length = input.length := by
  induction input generalizing pre with
  | nil => simp [findLf] at h
  | cons c cs ih =>
    unfold findLf at h
    split at h
    · cases h
      simp only [List.length_nil, List.length_cons]
      omega
    · cases hf : findLf cs with
      | none => rw [hf] at h; simp at h
      | some pr =>
          rw [hf] at h
          cases h
          have := ih (show findLf cs = some (pr.1, pr.2) from hf)
          simp only [List.length_cons]
          omega

theorem ingestLine_tooLong_length {rr : RequestReceiver} {input rest : List Char}
    (h : rr.ingestLine input = .tooLong rest) : rest.length ≤ input.length := by
  unfold RequestReceiver.ingestLine at h
  cases hf : findLf input with
  | none => rw [hf] at h; simp at h
  | some pr =>
      obtain ⟨pre, rst⟩ := pr
      rw [hf] at h
      have hlen := findLf_length hf
      dsimp only at h
      split_ifs at h <;>
        first
          | (cases h <;> omega)
          | (obtain ⟨-, rfl⟩ := h; omega)
          | (simp at h)

theorem ingestLine_line_length {rr : RequestReceiver} {input line rest : List Char}
    (h : rr.ingestLine input = .line line rest) : rest.length ≤ input.length := by
  unfold RequestReceiver.ingestLine at h
  cases hf : findLf input with
  | none => rw [hf] at h; simp at h
  | some pr =>
      obtain ⟨pre, rst⟩ := pr
      rw [hf] at h
      have hlen := findLf_length hf
      dsimp only at h
      split_ifs at h <;>
        first
          | (cases h <;> omega)
          | (obtain ⟨-, rfl⟩ := h; omega)
          | (simp at h)

theorem feedData_le (input : List Char) :
    ∀ ph msg,
      (feedData ph msg input).2.1.length ≤ msg.length + input.length ∧
      (feedData ph msg input).2.2.1.length ≤ input.length := by
  induction input with
  | nil => intro ph msg; simp [feedData]
  | cons c cs ih =>
    intro ph msg
    have hstep : ∀ ph2 msg2, msg2.length ≤ msg.length + 1 →
        (feedData ph2 msg2 cs).2.1.length ≤ msg.length + (c :: cs).length ∧
        (feedData ph2 msg2 cs).2.2.1.length ≤ (c :: cs).length := by
      intro ph2 msg2 hm
      obtain ⟨h1, h2⟩ := ih ph2 msg2
      constructor
      · simp only [List.length_cons]; omega
      · simp only [List.length_cons]; omega
    cases ph <;> unfold feedData <;> split_ifs <;>
      first
        | (exact hstep _ _ (by simp))
        | (constructor
           · have := List.length_dropLast msg
             simp only [List.length_cons]
             omega
           · simp only [List.length_cons]; omega)

theorem drainDummy_rest_le (dr : DummyDataReceiver) (input : List Char) :
    (drainDummy dr input).2.1.length ≤ input.length := by
  cases dr with
  | dataDrain ph =>
      rcases hfd : feedData ph [] input with ⟨ph2, msg2, rest2, done⟩
      have h2 := (feedData_le input ph []).2
      rw [hfd] at h2
      simp only [drainDummy, hfd]
      simpa using h2
  | bdatDrain n =>
      unfold drainDummy
      dsimp only
      split_ifs
      · simp
      · simp

theorem ingestLoop_halt {env : IngestEnv} {bytesLen fuel : Nat} {s : Session}
    {rem : List Char} {evs : List Event} {s2 : Session}
    (h : stepOnce env bytesLen s rem = .halt s2) :
    ingestLoop env bytesLen (fuel + 1) s rem evs = (s2, evs, .ok) := by
  simp only [ingestLoop, h]

theorem ingestLoop_ret {env : IngestEnv} {bytesLen fuel : Nat} {s : Session}
    {rem : List Char} {evs : List Event} {s2 : Session} {evs2 : List Event}
    {r : IngestResult}
    (h : stepOnce env bytesLen s rem = .ret s2 evs2 r) :
    ingestLoop env bytesLen (fuel + 1) s rem evs = (s2, evs ++ evs2, r) := by
  simp only [ingestLoop, h]

theorem ingestLoop_cont {env : IngestEnv} {bytesLen fuel : Nat} {s : Session}
    {rem : List Char} {evs : List Event} {s2 : Session} {rest : List Char}
    {evs2 : List Event}
    (h : stepOnce env bytesLen s rem = .cont s2 rest evs2) :
    ingestLoop env bytesLen (fuel + 1) s rem evs
      = ingestLoop env bytesLen fuel s2 rest (evs ++ evs2) := by
  simp only [ingestLoop, h]

/-- In the `Request` state with an empty buffer and no input left, the loop
stops with the session unchanged. -/
theorem request_empty_halt (env : IngestEnv) (bytesLen : Nat) (s : Session)
    (hst : s.state = .request ⟨[]⟩) :
    stepOnce env bytesLen s [] = .halt s := by
  obtain ⟨proto, tls, acc, pa, dat, st⟩ := s
  simp only at hst
  subst hst
  rfl

theorem feedBdat_spec (br : BdatReceiver) (msg input : List Char) :
    ((feedBdat br msg input).2.2.2 = true →
        (feedBdat br msg input).2.1.length = msg.length + br.remaining ∧
        (feedBdat br msg input).2.2.1.length ≤ input.length ∧
        br.remaining ≤ input.length) ∧
    ((feedBdat br msg input).2.2.2 = false →
        (feedBdat br msg input).2.1.length = msg.length + input.length ∧
        (feedBdat br msg input).1.remaining = br.remaining - input.length ∧
        input.length < br.remaining ∧
        (feedBdat br msg input).2.2.1 = []) := by
  unfold feedBdat
  split_ifs with hn
  · refine ⟨fun _ => ⟨?_, ?_, hn⟩, fun h => by simp at h⟩
    · simp only [List.length_append, List.length_take]
      omega
    · simp [List.length_drop]
  · exact ⟨fun h => by simp at h,
      fun _ => ⟨by simp, by simp, by omega, rfl⟩⟩

/-- Splits a goal about every possible `LoopAction` outcome into one
positive obligation per constructor. -/
theorem loopAction_cases (P1 : Session → Prop) (P2 : Session → IngestResult → Prop)
    (P3 : Session → List Char → Prop) (A : LoopAction)
    (h : match A with
         | .halt s2 => P1 s2
         | .ret s2 _ r => P2 s2 r
         | .cont s2 rest _ => P3 s2 rest) :
    (∀ s2, A = .halt s2 → P1 s2) ∧
    (∀ s2 evs2 r, A = .ret s2 evs2 r → P2 s2 r) ∧
    (∀ s2 rest evs2, A = .cont s2 rest evs2 → P3 s2 rest) := by
  cases A with
  | halt s0 =>
      refine ⟨fun s2 h2 => ?_, fun _ _ _ h2 => by exact LoopAction.noConfusion h2,
        fun _ _ _ h2 => by exact LoopAction.noConfusion h2⟩
      injection h2 with e
      subst e
      exact h
  | ret s0 evs0 r0 =>
      refine ⟨fun _ h2 => by exact LoopAction.noConfusion h2, fun s2 evs2 r h2 => ?_,
        fun _ _ _ h2 => by exact LoopAction.noConfusion h2⟩
      injection h2 with e1 e2 e3
      subst e1
      subst e3
      exact h
  | cont s0 rest0 evs0 =>
      refine ⟨fun _ h2 => by exact LoopAction.noConfusion h2,
        fun _ _ _ h2 => by exact LoopAction.noConfusion h2, fun s2 rest evs2 h2 => ?_⟩
      injection h2 with e1 e2 e3
      subst e1
      subst e2
      exact h

/-- One dispatch-loop iteration preserves the size invariant: a `halt`
or `cont` action carries it over (and `cont` never grows the unconsumed
input), and a `ret` action (which terminates the session) still respects
the plain message bound and never reports `ok`. -/
theorem stepOnce_size (env : IngestEnv) (bytesLen : Nat) (s : Session) (rem : List Char)
    (hrem : rem.length ≤ bytesLen) (hinv : SizeInv s) :
    (∀ s2, stepOnce env bytesLen s rem = .halt s2 → SizeInv s2) ∧
    (∀ s2 evs2 r, stepOnce env bytesLen s rem = .ret s2 evs2 r →
        MsgBound s2 ∧ r ≠ .ok) ∧
    (∀ s2 rest evs2, stepOnce env bytesLen s rem = .cont s2 rest evs2 →
        SizeInv s2 ∧ rest.length ≤ bytesLen) := by
  obtain ⟨hbound, hbdat⟩ := hinv
  obtain ⟨proto, tls, acc, pa, dat, st⟩ := s
  simp only [MsgBound] at hbound
  simp only at hbdat
  refine loopAction_cases _ _ _ _ ?_
  cases st with
  | request rr =>
    cases hline : rr.ingestLine rem with
    | needsMore buf =>
        have hso : stepOnce env bytesLen
            (Session.mk proto tls acc pa dat (.request rr)) rem
            = .halt (Session.mk proto tls acc pa dat (.request ⟨buf⟩)) := by
          simp only [stepOnce, hline]
        rw [hso]
        exact ⟨hbound, fun br hbr => by exact State.noConfusion hbr⟩
    | tooLong rest0 =>
        have hr0 : rest0.length ≤ bytesLen :=
          le_trans (ingestLine_tooLong_length hline) hrem
        have hso : stepOnce env bytesLen
            (Session.mk proto tls acc pa dat (.request rr)) rem
            = .cont (Session.mk proto tls acc pa dat .requestTooLarge) rest0 [] := by
          simp only [stepOnce, hline]
        rw [hso]
        exact ⟨⟨hbound, fun br hbr => by exact State.noConfusion hbr⟩, hr0⟩
    | line line0 rest0 =>
        have hr0 : rest0.length ≤ bytesLen :=
          le_trans (ingestLine_line_length hline) hrem
        cases hparse : parseRequest line0 with
        | error e =>
          cases e with
          | unknown =>
              have hso : stepOnce env bytesLen
                  (Session.mk proto tls acc pa dat (.request rr)) rem
                  = .cont (Session.mk proto tls acc pa dat (.request ⟨[]⟩)) rest0
                      [.write "500 5.5.1 Invalid command.\r\n"] := by
                simp only [stepOnce, hline, hparse]
              rw [hso]
              exact ⟨⟨hbound, fun br hbr => by exact State.noConfusion hbr⟩, hr0⟩
          | malformed hint =>
              have hso : stepOnce env bytesLen
                  (Session.mk proto tls acc pa dat (.request rr)) rem
                  = .cont (Session.mk proto tls acc pa dat (.request ⟨[]⟩)) rest0
                      [.write ("501 5.5.2 Syntax error, expected: " ++ hint ++ "\r\n")] := by
                simp only [stepOnce, hline, hparse]
              rw [hso]
              exact ⟨⟨hbound, fun br hbr => by exact State.noConfusion hbr⟩, hr0⟩
        | ok req =>
          cases req with
          | noop =>
              have hso : stepOnce env bytesLen
                  (Session.mk proto tls acc pa dat (.request rr)) rem
                  = .cont (Session.mk proto tls acc pa dat (.request ⟨[]⟩)) rest0
                      [.write "250 2.0.0 OK\r\n"] := by
                simp only [stepOnce, hline, hparse]
              rw [hso]
              exact ⟨⟨hbound, fun br hbr => by exact State.noConfusion hbr⟩, hr0⟩
          | rset =>
              have hso : stepOnce env bytesLen
                  (Session.mk proto tls acc pa dat (.request rr)) rem
                  = .cont (Session.mk proto tls acc pa dat.reset (.request ⟨[]⟩)) rest0
                      [.write "250 2.0.0 OK\r\n"] := by
                simp only [stepOnce, hline, hparse]
              rw [hso]
              refine ⟨⟨?_, fun br hbr => by exact State.noConfusion hbr⟩, hr0⟩
              simp [MsgBound, SessionData.reset]
          | quit =>
              have hso : stepOnce env bytesLen
                  (Session.mk proto tls acc pa dat (.request rr)) rem
                  = .ret (Session.mk proto tls acc pa dat (.request rr))
                      [.write "221 2.0.0 Bye.\r\n"] .disconnect := by
                simp only [stepOnce, hline, hparse]
              rw [hso]
              exact ⟨hbound, by simp⟩
          | startTls =>
              cases tls with
              | false =>
                cases acc with
                | true =>
                    have hso : stepOnce env bytesLen
                        (Session.mk proto false true pa dat (.request rr)) rem
                        = .ret (Session.mk proto false true pa dat State.default)
                            [.write "220 2.0.0 Ready to start TLS.\r\n"] .tlsHandover := by
                      simp only [stepOnce, hline, hparse]
                      rfl
                    rw [hso]
                    exact ⟨hbound, by simp⟩
                | false =>
                    have hso : stepOnce env bytesLen
                        (Session.mk proto false false pa dat (.request rr)) rem
                        = .cont (Session.mk proto false false pa dat (.request ⟨[]⟩)) rest0
                            [.write "502 5.7.0 TLS not available.\r\n"] := by
                      simp only [stepOnce, hline, hparse]
                      rfl
                    rw [hso]
                    exact ⟨⟨hbound, fun br hbr => by exact State.noConfusion hbr⟩, hr0⟩
              | true =>
                  have hso : stepOnce env bytesLen
                      (Session.mk proto true acc pa dat (.request rr)) rem
                      = .cont (Session.mk proto true acc pa dat (.request ⟨[]⟩)) rest0
                          [.write "504 5.7.4 Already in TLS mode.\r\n"] := by
                    simp only [stepOnce, hline, hparse]
                    rfl
                  rw [hso]
                  exact ⟨⟨hbound, fun br hbr => by exact State.noConfusion hbr⟩, hr0⟩
          | data =>
              rcases hcs : canSendData env dat with ⟨b, evts⟩
              cases b with
              | true =>
                  have hso : stepOnce env bytesLen
                      (Session.mk proto tls acc pa dat (.request rr)) rem
                      = .cont (Session.mk proto tls acc pa
                            { dat with message := [] } (.data .lineStart)) rest0
                          [.write "354 Start mail input; end with <CRLF>.<CRLF>\r\n"] := by
                    simp only [stepOnce, hline, hparse, hcs]
                  rw [hso]
                  exact ⟨⟨by simp [MsgBound], fun br hbr => by exact State.noConfusion hbr⟩, hr0⟩
              | false =>
                  have hso : stepOnce env bytesLen
                      (Session.mk proto tls acc pa dat (.request rr)) rem
                      = .cont (Session.mk proto tls acc pa dat (.request ⟨[]⟩)) rest0
                          evts := by
                    simp only [stepOnce, hline, hparse, hcs]
                  rw [hso]
                  exact ⟨⟨hbound, fun br hbr => by exact State.noConfusion hbr⟩, hr0⟩
          | bdat n lastFlag =>
              by_cases hg : n + dat.message.length < pa.max_message_size
              · have hso : stepOnce env bytesLen
                    (Session.mk proto tls acc pa dat (.request rr)) rem
                    = .cont (Session.mk proto tls acc pa dat (.bdat ⟨n, lastFlag⟩))
                        rest0 [] := by
                  simp only [stepOnce, hline, hparse]
                  rw [if_pos hg]
                rw [hso]
                refine ⟨⟨hbound, ?_⟩, hr0⟩
                intro br hbr
                injection hbr with e
                subst e
                show dat.message.length + n < pa.max_message_size
                omega
              · have hso : stepOnce env bytesLen
                    (Session.mk proto tls acc pa dat (.request rr)) rem
                    = .cont (Session.mk proto tls acc pa dat
                          (.dataTooLarge (.bdatDrain n))) rest0 [] := by
                  simp only [stepOnce, hline, hparse]
                  rw [if_neg hg]
                rw [hso]
                exact ⟨⟨hbound, fun br hbr => by exact State.noConfusion hbr⟩, hr0⟩
  | data phase =>
    by_cases hg : dat.message.length + bytesLen < pa.max_message_size
    · rcases hfd : feedData phase dat.message rem with ⟨ph2, msg2, rest2, done⟩
      have hle := feedData_le rem phase dat.message
      rw [hfd] at hle
      simp only at hle
      have hmsg2 : msg2.length ≤ pa.max_message_size := by omega
      cases done with
      | true =>
        by_cases hq : env.queue_reply = ""
        · have hso : stepOnce env bytesLen
              (Session.mk proto tls acc pa dat (.data phase)) rem
              = .ret (Session.mk proto tls acc pa
                    { dat with message := msg2 } (.data phase)) [] .disconnect := by
            simp only [stepOnce]
            rw [if_pos hg, hfd]
            dsimp only
            rw [if_pos hq]
            all_goals rfl
          rw [hso]
          exact ⟨hmsg2, by simp⟩
        · have hso : stepOnce env bytesLen
              (Session.mk proto tls acc pa dat (.data phase)) rem
              = .cont (Session.mk proto tls acc pa dat.reset State.default) rest2
                  (match proto with
                    | .smtp => [.write env.queue_reply]
                    | .lmtp => List.replicate dat.rcpt_to.length (.write env.queue_reply)) := by
            simp only [stepOnce]
            rw [if_pos hg, hfd]
            dsimp only
            rw [if_neg hq]
            all_goals rfl
          rw [hso]
          refine ⟨⟨by simp [MsgBound, SessionData.reset],
            fun br hbr => by exact State.noConfusion hbr⟩, by omega⟩
      | false =>
        have hso : stepOnce env bytesLen
            (Session.mk proto tls acc pa dat (.data phase)) rem
            = .halt (Session.mk proto tls acc pa
                  { dat with message := msg2 } (.data ph2)) := by
          simp only [stepOnce]
          rw [if_pos hg, hfd]
        rw [hso]
        exact ⟨hmsg2, fun br hbr => by exact State.noConfusion hbr⟩
    · have hso : stepOnce env bytesLen
          (Session.mk proto tls acc pa dat (.data phase)) rem
          = .cont (Session.mk proto tls acc pa dat
                (.dataTooLarge (.dataDrain phase))) rem [] := by
        simp only [stepOnce]
        rw [if_neg hg]
      rw [hso]
      exact ⟨⟨hbound, fun br hbr => by exact State.noConfusion hbr⟩, hrem⟩
  | bdat br0 =>
    have hsum : dat.message.length + br0.remaining < pa.max_message_size := hbdat br0 rfl
    rcases hfb : feedBdat br0 dat.message rem with ⟨br2, msg2, rest2, done⟩
    have hspec := feedBdat_spec br0 dat.message rem
    rw [hfb] at hspec
    simp only at hspec
    cases done with
    | true =>
      obtain ⟨hm2, hr2, hnr⟩ := hspec.1 rfl
      have hmsg2 : msg2.length ≤ pa.max_message_size := by omega
      rcases hcs : canSendData env { dat with message := msg2 } with ⟨b, evts⟩
      cases b with
      | true =>
        cases hlast : br0.is_last with
        | true =>
          by_cases hq : env.queue_reply = ""
          · have hso : stepOnce env bytesLen
                (Session.mk proto tls acc pa dat (.bdat br0)) rem
                = .ret (Session.mk proto tls acc pa
                      { dat with message := msg2 } (.bdat br0)) [] .disconnect := by
              simp only [stepOnce, hfb, hcs, hlast]
              rw [if_pos trivial]
              rw [if_pos hq]
              all_goals rfl
            rw [hso]
            exact ⟨hmsg2, by simp⟩
          · have hso : stepOnce env bytesLen
                (Session.mk proto tls acc pa dat (.bdat br0)) rem
                = .cont (Session.mk proto tls acc pa
                      (SessionData.reset { dat with message := msg2 }) State.default) rest2
                    (match proto with
                      | .smtp => [.write env.queue_reply]
                      | .lmtp => List.replicate dat.rcpt_to.length
                          (.write env.queue_reply)) := by
              simp only [stepOnce, hfb, hcs, hlast]
              rw [if_pos trivial]
              rw [if_neg hq]
              all_goals rfl
            rw [hso]
            refine ⟨⟨by simp [MsgBound, SessionData.reset],
              fun br hbr => by exact State.noConfusion hbr⟩, by omega⟩
        | false =>
          have hso : stepOnce env bytesLen
              (Session.mk proto tls acc pa dat (.bdat br0)) rem
              = .cont (Session.mk proto tls acc pa
                    { dat with message := msg2 } State.default) rest2
                  [.write "250 2.6.0 Chunk accepted.\r\n"] := by
            simp only [stepOnce, hfb, hcs, hlast]
            rw [if_neg (by simp)]
          rw [hso]
          exact ⟨⟨hmsg2, fun br hbr => by exact State.noConfusion hbr⟩, by omega⟩
      | false =>
        have hso : stepOnce env bytesLen
            (Session.mk proto tls acc pa dat (.bdat br0)) rem
            = .cont (Session.mk proto tls acc pa
                  { dat with message := [] } State.default) rest2 evts := by
          simp only [stepOnce, hfb, hcs]
        rw [hso]
        exact ⟨⟨by simp [MsgBound], fun br hbr => by exact State.noConfusion hbr⟩, by omega⟩
    | false =>
      obtain ⟨hm2, hbr2, hlt, hrst⟩ := hspec.2 rfl
      have hso : stepOnce env bytesLen
          (Session.mk proto tls acc pa dat (.bdat br0)) rem
          = .halt (Session.mk proto tls acc pa
                { dat with message := msg2 } (.bdat br2)) := by
        simp only [stepOnce, hfb]
      rw [hso]
      refine ⟨by show msg2.length ≤ pa.max_message_size; omega, ?_⟩
      intro br hbr
      injection hbr with e
      subst e
      show msg2.length + br2.remaining < pa.max_message_size
      omega
  | dataTooLarge dr =>
    rcases hdr : drainDummy dr rem with ⟨dr2, rest2, done⟩
    have hrl := drainDummy_rest_le dr rem
    rw [hdr] at hrl
    simp only at hrl
    cases done with
    | true =>
      have hso : stepOnce env bytesLen
          (Session.mk proto tls acc pa dat (.dataTooLarge dr)) rem
          = .cont (Session.mk proto tls acc pa
                { dat with message := [] } State.default) rest2
              [.write "552 5.3.4 Message too big for system.\r\n"] := by
        simp only [stepOnce, hdr]
      rw [hso]
      exact ⟨⟨by simp [MsgBound], fun br hbr => by exact State.noConfusion hbr⟩, by omega⟩
    | false =>
      have hso : stepOnce env bytesLen
          (Session.mk proto tls acc pa dat (.dataTooLarge dr)) rem
          = .halt (Session.mk proto tls acc pa dat (.dataTooLarge dr2)) := by
        simp only [stepOnce, hdr]
      rw [hso]
      exact ⟨hbound, fun br hbr => by exact State.noConfusion hbr⟩
  | requestTooLarge =>
    cases hf : findLf rem with
    | some pr =>
      obtain ⟨a, rest0⟩ := pr
      have hfl := findLf_length hf
      have hso : stepOnce env bytesLen
          (Session.mk proto tls acc pa dat .requestTooLarge) rem
          = .cont (Session.mk proto tls acc pa dat State.default) rest0
              [.write "554 5.3.4 Line is too long.\r\n"] := by
        simp only [stepOnce, hf]
      rw [hso]
      exact ⟨⟨hbound, fun br hbr => by exact State.noConfusion hbr⟩, by omega⟩
    | none =>
      have hso : stepOnce env bytesLen
          (Session.mk proto tls acc pa dat .requestTooLarge) rem
          = .halt (Session.mk proto tls acc pa dat .requestTooLarge) := by
        simp only [stepOnce, hf]
      rw [hso]
      exact ⟨hbound, fun br hbr => by exact State.noConfusion hbr⟩

/-- The dispatch loop preserves the size invariant: the message bound holds
on the resulting session, and when the loop hands control back with `ok`
(more input expected) the full invariant holds. -/
theorem ingestLoop_size (env : IngestEnv) (bytesLen : Nat) :
    ∀ (fuel : Nat) (s : Session) (rem : List Char) (evs : List Event),
      rem.length ≤ bytesLen → SizeInv s →
      MsgBound (ingestLoop env bytesLen fuel s rem evs).1 ∧
      ((ingestLoop env bytesLen fuel s rem evs).2.2 = .ok →
        SizeInv (ingestLoop env bytesLen fuel s rem evs).1) := by
  intro fuel
  induction fuel with
  | zero =>
      intro s rem evs h1 h2
      exact ⟨h2.1, fun _ => h2⟩
  | succ n ih =>
      intro s rem evs hrem hinv
      obtain ⟨hhalt, hret, hcont⟩ := stepOnce_size env bytesLen s rem hrem hinv
      cases hso : stepOnce env bytesLen s rem with
      | halt s2 =>
          rw [ingestLoop_halt hso]
          have h2 := hhalt s2 hso
          exact ⟨h2.1, fun _ => h2⟩
      | ret s2 evs2 r =>
          rw [ingestLoop_ret hso]
          have h2 := hret s2 evs2 r hso
          exact ⟨h2.1, fun hok => absurd hok h2.2⟩
      | cont s2 rest evs2 =>
          rw [ingestLoop_cont hso]
          exact ih s2 rest (evs ++ evs2)
            (hcont s2 rest evs2 hso).2 (hcont s2 rest evs2 hso).1

/-- In the `Data` state, when the size gate trips (current buffer plus the
whole input slice reaching the maximum) the state shifts to `DataTooLarge`
with nothing consumed by this iteration. -/
theorem stepOnce_data_gate_fail (env : IngestEnv) (bytesLen : Nat) (s : Session)
    (ph : DPhase) (rem : List Char) (hst : s.state = .data ph)
    (hge : s.params.max_message_size ≤ s.data.message.length + bytesLen) :
    stepOnce env bytesLen s rem
      = .cont { s with state := .dataTooLarge (.dataDrain ph) } rem [] := by
  obtain ⟨proto, tls, acc, pa, dat, st⟩ := s
  simp only at hst
  subst hst
  simp only [stepOnce]
  rw [if_neg (by simp only at hge ⊢; omega)]

/-- In the `Data` state under the size gate, a completing body hands the
message to the queue: an empty queue reply is the disconnect signal with no
write, a non-empty one is replied (once per recipient in LMTP) and the
transaction is reset. -/
theorem stepOnce_data_complete (env : IngestEnv) (bytesLen : Nat) (s : Session)
    (ph ph2 : DPhase) (rem msg2 rest2 : List Char) (hst : s.state = .data ph)
    (hgate : s.data.message.length + bytesLen < s.params.max_message_size)
    (hfd : feedData ph s.data.message rem = (ph2, msg2, rest2, true)) :
    (env.queue_reply = "" →
      stepOnce env bytesLen s rem
        = .ret { s with data := { s.data with message := msg2 } } [] .disconnect) ∧
    (env.queue_reply ≠ "" →
      stepOnce env bytesLen s rem
        = .cont { s with data := s.data.reset, state := State.default } rest2
            (match s.protocol with
              | .smtp => [.write env.queue_reply]
              | .lmtp => List.replicate s.data.rcpt_to.length
                  (.write env.queue_reply))) := by
  obtain ⟨proto, tls, acc, pa, dat, st⟩ := s
  simp only at hst hgate hfd
  subst hst
  constructor
  · intro hq
    simp only [stepOnce]
    rw [if_pos hgate, hfd]
    dsimp only
    rw [if_pos hq]
  · intro hq
    simp only [stepOnce]
    rw [if_pos hgate, hfd]
    dsimp only
    rw [if_neg hq]
    all_goals rfl

/-- In the `Data` state under the size gate, an incomplete body suspends
with the receiver state and buffer advanced. -/
theorem stepOnce_data_incomplete (env : IngestEnv) (bytesLen : Nat) (s : Session)
    (ph ph2 : DPhase) (rem msg2 rest2 : List Char) (hst : s.state = .data ph)
    (hgate : s.data.message.length + bytesLen < s.params.max_message_size)
    (hfd : feedData ph s.data.message rem = (ph2, msg2, rest2, false)) :
    stepOnce env bytesLen s rem
      = .halt { s with data := { s.data with message := msg2 }, state := .data ph2 } := by
  obtain ⟨proto, tls, acc, pa, dat, st⟩ := s
  simp only at hst hgate hfd
  subst hst
  simp only [stepOnce]
  rw [if_pos hgate, hfd]

/-- A completing last BDAT chunk with throttling permitted behaves as the
Data completion path. -/
theorem stepOnce_bdat_complete (env : IngestEnv) (bytesLen : Nat) (s : Session)
    (br : BdatReceiver) (br2 : BdatReceiver) (rem msg2 rest2 : List Char)
    (hst : s.state = .bdat br) (hlast : br.is_last = true)
    (hfb : feedBdat br s.data.message rem = (br2, msg2, rest2, true))
    (hcs : canSendData env { s.data with message := msg2 } = (true, [])) :
    (env.queue_reply = "" →
      stepOnce env bytesLen s rem
        = .ret { s with data := { s.data with message := msg2 } } [] .disconnect) ∧
    (env.queue_reply ≠ "" →
      stepOnce env bytesLen s rem
        = .cont { s with data := s.data.reset, state := State.default } rest2
            (match s.protocol with
              | .smtp => [.write env.queue_reply]
              | .lmtp => List.replicate s.data.rcpt_to.length
                  (.write env.queue_reply))) := by
  obtain ⟨proto, tls, acc, pa, dat, st⟩ := s
  simp only at hst hfb hcs
  subst hst
  constructor
  · intro hq
    simp only [stepOnce]
    rw [hfb]
    dsimp only
    rw [hcs]
    dsimp only
    rw [hlast]
    rw [if_pos rfl]
    rw [if_pos hq]
    all_goals rfl
  · intro hq
    simp only [stepOnce]
    rw [hfb]
    dsimp only
    rw [hcs]
    dsimp only
    rw [hlast]
    rw [if_pos rfl]
    rw [if_neg hq]
    all_goals rfl

/-- A completing discard receiver empties the buffer, writes the 552 reply
and returns to the default state. -/
theorem stepOnce_drain_complete (env : IngestEnv) (bytesLen : Nat) (s : Session)
    (dr dr2 : DummyDataReceiver) (rem rest2 : List Char)
    (hst : s.state = .dataTooLarge dr)
    (hdr : drainDummy dr rem = (dr2, rest2, true)) :
    stepOnce env bytesLen s rem
      = .cont { s with data := { s.data with message := [] }, state := State.default }
          rest2 [.write "552 5.3.4 Message too big for system.\r\n"] := by
  obtain ⟨proto, tls, acc, pa, dat, st⟩ := s
  simp only at hst hdr
  subst hst
  simp only [stepOnce]
  rw [hdr]

/-- An incomplete discard receiver suspends in `DataTooLarge`. -/
theorem stepOnce_drain_incomplete (env : IngestEnv) (bytesLen : Nat) (s : Session)
    (dr dr2 : DummyDataReceiver) (rem rest2 : List Char)
    (hst : s.state = .dataTooLarge dr)
    (hdr : drainDummy dr rem = (dr2, rest2, false)) :
    stepOnce env bytesLen s rem = .halt { s with state := .dataTooLarge dr2 } := by
  obtain ⟨proto, tls, acc, pa, dat, st⟩ := s
  simp only at hst hdr
  subst hst
  simp only [stepOnce]
  rw [hdr]

end IngestLemmas

/-! ### Claim C1 -/

/-- C1 (counterexample).  The claim also asserts that "all side effects on
the envelope are undone on rejection".  This is false: here the RCPT Sieve
script accepts with a `SetEnvelope "from"` modification, the milter then
rejects the recipient (final reply `550 5.7.1 Rejected by milter.`, not a
250 acceptance), the tentative recipient is popped — but the applied
envelope modification persists: the MAIL FROM after the command differs
from the MAIL FROM before it. -/
theorem c1_counterexample :
    lastWrite (handle_rcpt_to wParams wEnvSieveMilter wData wRcpt).events
        = some "550 5.7.1 Rejected by milter.\r\n" ∧
    (handle_rcpt_to wParams wEnvSieveMilter wData wRcpt).data.rcpt_to = wData.rcpt_to ∧
    (handle_rcpt_to wParams wEnvSieveMilter wData wRcpt).data.mail_from ≠ wData.mail_from := by
  decide

/-- C1 (amended).  For every RCPT TO command whose final reply is not the
`250 2.1.5 OK` acceptance, the session's `rcpt_to` list after the command
equals the list before it: the tentatively appended recipient is removed on
every rejection path (Sieve reject, milter reject, MTA-hook reject, mailbox
absence, relay refusal, transient verification failure, rate-limit
refusal).  (Envelope modifications applied by an accepting Sieve script are
not undone — see the counterexample.) -/
theorem c1_rejection_restores_rcpt_to (p : SmtpParams) (env : RcptEnv) (d : SessionData)
    (rto : RcptTo)
    (hrej : lastWrite (handle_rcpt_to p env d rto).events ≠ some "250 2.1.5 OK\r\n") :
    (handle_rcpt_to p env d rto).data.rcpt_to = d.rcpt_to := by
  rcases handle_rcpt_to_cases p env d rto with
    ⟨w, h, _⟩ | ⟨w, h⟩ | ⟨w, hw, h⟩ | ⟨r', h, _, _⟩
  · rw [h]
  · rw [h]
  · rw [h, rcpt_error_eq]
  · exact absurd (by rw [h]; rfl) hrej

/-- C1 (witness): a concrete rejected RCPT (relay refused) with the
recipient list unchanged. -/
theorem c1_witness :
    lastWrite (handle_rcpt_to wParams wEnvRelayDenied wData wRcpt).events
        ≠ some "250 2.1.5 OK\r\n" ∧
    (handle_rcpt_to wParams wEnvRelayDenied wData wRcpt).data.rcpt_to = wData.rcpt_to :=
  ⟨by decide, c1_rejection_restores_rcpt_to wParams wEnvRelayDenied wData wRcpt (by decide)⟩

/-! ### Claim C4 -/

/-- C4.  (i) `rcpt_to` never grows beyond `params.rcpt_max` entries and
stays duplicate-free under lowercased-address equality; (ii) an RCPT TO
whose recipient is already present replies `250 2.1.5 OK` with nothing else
run (data and reply exactly as before the command, a single 250 write);
(iii) a recipient that collides with an existing entry after address
rewriting is silently collapsed to the same single `250 2.1.5 OK` reply
with the list restored. -/
theorem c4_rcpt_list_invariants (p : SmtpParams) (env : RcptEnv) (d : SessionData)
    (rto : RcptTo) :
    ((d.rcpt_to.length ≤ p.rcpt_max →
        (handle_rcpt_to p env d rto).data.rcpt_to.length ≤ p.rcpt_max) ∧
     (List.Pairwise (fun a b => a.address_lcase ≠ b.address_lcase) d.rcpt_to →
        List.Pairwise (fun a b => a.address_lcase ≠ b.address_lcase)
          (handle_rcpt_to p env d rto).data.rcpt_to)) ∧
    (d.mail_from.isNone = false → d.rcpt_to.length < p.rcpt_max →
       ((rto.flags &&& dsnNotifyMask ≠ 0 || rto.orcpt.isSome) && !p.rcpt_dsn) = false →
       d.rcpt_to.any (fun x => x.eqv (buildRcpt rto)) = true →
       handle_rcpt_to p env d rto = ⟨d, [.write "250 2.1.5 OK\r\n"], true⟩) ∧
    (∀ na, env.rcpt_script = none → env.rewrite_configured = true →
       env.milter_result = none → env.mta_hook_result = none →
       env.rewrite_result = some na → containsChar na '@' = true →
       (∃ x ∈ d.rcpt_to, x.address_lcase = (toLowercase na)) →
       d.mail_from.isNone = false → d.rcpt_to.length < p.rcpt_max →
       ((rto.flags &&& dsnNotifyMask ≠ 0 || rto.orcpt.isSome) && !p.rcpt_dsn) = false →
       d.rcpt_to.any (fun x => x.eqv (buildRcpt rto)) = false →
       handle_rcpt_to p env d rto = ⟨d, [.write "250 2.1.5 OK\r\n"], true⟩) := by
  refine ⟨⟨?_, ?_⟩, ?_, ?_⟩
  · -- length bound
    intro hlen
    rcases handle_rcpt_to_cases p env d rto with
      ⟨w, h, _⟩ | ⟨w, h⟩ | ⟨w, hw, h⟩ | ⟨r', h, hmax, _⟩
    · rw [h]; exact hlen
    · rw [h]; exact hlen
    · rw [h, rcpt_error_eq]; exact hlen
    · rw [h]
      simp only [List.length_append, List.length_singleton]
      omega
  · -- duplicate freedom
    intro hnd
    rcases handle_rcpt_to_cases p env d rto with
      ⟨w, h, _⟩ | ⟨w, h⟩ | ⟨w, hw, h⟩ | ⟨r', h, hmax, hfil⟩
    · rw [h]; exact hnd
    · rw [h]; exact hnd
    · rw [h, rcpt_error_eq]; exact hnd
    · rw [h]
      have hnone : ∀ a ∈ d.rcpt_to, a.address_lcase ≠ r'.address_lcase := by
        intro a ha heq
        have hnil : d.rcpt_to.filter (fun x => x.eqv r') = [] :=
          List.length_eq_zero.mp hfil
        have hmem : a ∈ d.rcpt_to.filter (fun x => x.eqv r') :=
          List.mem_filter.mpr ⟨ha, by simp [SessionAddress.eqv, heq]⟩
        rw [hnil] at hmem
        exact absurd hmem (List.not_mem_nil a)
      refine List.pairwise_append.mpr ⟨hnd, List.pairwise_singleton _ _, ?_⟩
      intro a ha b hb
      rw [List.mem_singleton] at hb
      subst hb
      exact hnone a ha
  · -- duplicate collapse before any policy stage
    intro h1 h2 h3 h4
    unfold handle_rcpt_to
    rw [if_neg (by simp [h1]), if_neg (by omega),
      if_neg (by rw [h3]; exact Bool.false_ne_true), if_pos h4]
  · -- collapse after rewriting collision
    intro na hs hrw hmil hhook hre hat hex h1 h2 h3 h4
    unfold handle_rcpt_to
    rw [if_neg (by simp [h1]), if_neg (by omega),
      if_neg (by rw [h3]; exact Bool.false_ne_true),
      if_neg (by rw [h4]; exact Bool.false_ne_true),
      rcpt_filter_stage_rewrite_collision env d na (buildRcpt rto) hs hrw hmil hhook
        hre hat hex]

/-- C4 (witness): an exact duplicate collapses to a single 250 with the
session unchanged; a rewrite collision collapses the same way; the length
bound holds on the result. -/
theorem c4_witness :
    handle_rcpt_to wParams wEnvRelayAllowed wDataDup wRcpt
        = ⟨wDataDup, [.write "250 2.1.5 OK\r\n"], true⟩ ∧
    handle_rcpt_to wParams wEnvRewrite wDataDup wRcpt2
        = ⟨wDataDup, [.write "250 2.1.5 OK\r\n"], true⟩ ∧
    (handle_rcpt_to wParams wEnvRelayAllowed wDataDup wRcpt).data.rcpt_to.length
        ≤ wParams.rcpt_max :=
  ⟨(c4_rcpt_list_invariants wParams wEnvRelayAllowed wDataDup wRcpt).2.1
      (by decide) (by decide) (by decide) (by decide),
   (c4_rcpt_list_invariants wParams wEnvRewrite wDataDup wRcpt2).2.2 "USER@example.com"
      rfl rfl rfl rfl rfl (by decide) (by decide) (by decide) (by decide) (by decide)
      (by decide),
   (c4_rcpt_list_invariants wParams wEnvRelayAllowed wDataDup wRcpt).1.1 (by decide)⟩

/-! ### Claim C5 -/

/-- C5.  (i) `rcpt_error` sleeps for `params.rcpt_errors_wait`, increments
`rcpt_errors` by one, writes the supplied status, and exactly when the
incremented counter has reached `rcpt_errors_max` it additionally writes
the 421 line and signals disconnection; (ii) whenever `rcpt_error` lets the
session continue the counter is still below the threshold (so every
invocation in a live session starts below it); (iii) `handle_rcpt_to`
changes the counter only by this single increment and only on commands
whose final reply is not the 250 acceptance. -/
theorem c5_rcpt_error_contract :
    (∀ (p : SmtpParams) (d : SessionData) (w : String),
       rcpt_error p d w =
         ⟨{ d with rcpt_errors := d.rcpt_errors + 1 },
          [.sleep p.rcpt_errors_wait, .write w] ++
            (if d.rcpt_errors + 1 < p.rcpt_errors_max then []
             else [.write "421 4.3.0 Too many errors, disconnecting.\r\n"]),
          decide (d.rcpt_errors + 1 < p.rcpt_errors_max)⟩) ∧
    (∀ (p : SmtpParams) (d : SessionData) (w : String),
       (rcpt_error p d w).ok = true →
         (rcpt_error p d w).data.rcpt_errors < p.rcpt_errors_max) ∧
    (∀ (p : SmtpParams) (env : RcptEnv) (d : SessionData) (rto : RcptTo),
       (handle_rcpt_to p env d rto).data.rcpt_errors ≠ d.rcpt_errors →
         (handle_rcpt_to p env d rto).data.rcpt_errors = d.rcpt_errors + 1 ∧
         lastWrite (handle_rcpt_to p env d rto).events ≠ some "250 2.1.5 OK\r\n") := by
  refine ⟨fun p d w => rcpt_error_eq p d w, ?_, ?_⟩
  · intro p d w hok
    rw [rcpt_error_eq] at hok ⊢
    simpa using of_decide_eq_true hok
  · intro p env d rto hne
    rcases handle_rcpt_to_cases p env d rto with
      ⟨w, h, _⟩ | ⟨w, h⟩ | ⟨w, hw, h⟩ | ⟨r', h, _, _⟩
    · rw [h] at hne
      exact absurd rfl hne
    · rw [h] at hne
      exact absurd (sieveApplied_rcpt_errors env d) hne
    · constructor
      · rw [h, rcpt_error_eq]
        exact congrArg (· + 1) (sieveApplied_rcpt_errors env d)
      · rw [h, rcpt_error_eq]
        rcases hw with hw | hw <;> subst hw <;>
          unfold lastWrite <;> split <;> simp_all
    · rw [h] at hne
      exact absurd (sieveApplied_rcpt_errors env d) hne

/-- C5 (witness): a concrete tarpit rejection (relay refused): the counter
is incremented, and with the budget not yet reached `rcpt_error` continues
with the counter still below the threshold. -/
theorem c5_witness :
    (rcpt_error wParams wData "550 5.1.2 Relay not allowed.\r\n").ok = true ∧
    (rcpt_error wParams wData "550 5.1.2 Relay not allowed.\r\n").data.rcpt_errors
        < wParams.rcpt_errors_max ∧
    (handle_rcpt_to wParams wEnvRelayDenied wData wRcpt).data.rcpt_errors
        = wData.rcpt_errors + 1 ∧
    lastWrite (handle_rcpt_to wParams wEnvRelayDenied wData wRcpt).events
        ≠ some "250 2.1.5 OK\r\n" :=
  ⟨by decide,
   c5_rcpt_error_contract.2.1 wParams wData _ (by decide),
   (c5_rcpt_error_contract.2.2 wParams wEnvRelayDenied wData wRcpt (by decide)).1,
   (c5_rcpt_error_contract.2.2 wParams wEnvRelayDenied wData wRcpt (by decide)).2⟩

/-! ### Claim C9 -/

/-- C9.  When the RCPT Sieve script returns `Accept` with `SetEnvelope`
modifications and the command passes the precondition gates and is not a
duplicate, then on every later rejection (milter, MTA-hook, directory
verification, relay refusal, rate limiting — i.e. whenever the final reply
is not the 250 acceptance) only the tentatively appended `rcpt_to` entry is
popped while the applied envelope modifications stay: the MAIL FROM after
the command is the MAIL FROM produced by applying the modifications. -/
theorem c9_sieve_modifications_survive_rejection (p : SmtpParams) (env : RcptEnv)
    (d : SessionData) (rto : RcptTo) (mods : List ScriptModification)
    (hscript : env.rcpt_script = some (.accept mods))
    (h1 : d.mail_from.isNone = false)
    (h2 : d.rcpt_to.length < p.rcpt_max)
    (h3 : ((rto.flags &&& dsnNotifyMask ≠ 0 || rto.orcpt.isSome) && !p.rcpt_dsn) = false)
    (h4 : d.rcpt_to.any (fun x => x.eqv (buildRcpt rto)) = false)
    (hrej : lastWrite (handle_rcpt_to p env d rto).events ≠ some "250 2.1.5 OK\r\n") :
    (handle_rcpt_to p env d rto).data.rcpt_to = d.rcpt_to ∧
    (handle_rcpt_to p env d rto).data.mail_from
        = (applyModifications d mods).mail_from := by
  rcases handle_rcpt_to_cases p env d rto with
    ⟨w, h, htag⟩ | ⟨w, h⟩ | ⟨w, hw, h⟩ | ⟨r', h, _, _⟩
  · exfalso
    rcases htag with ht | ht | ht | ht
    · rw [h1] at ht
      exact Bool.false_ne_true ht
    · omega
    · rw [h3] at ht
      exact Bool.false_ne_true ht
    · rw [h4] at ht
      exact Bool.false_ne_true ht
  · rw [h]
    exact ⟨rfl, by simp [sieveApplied, hscript]⟩
  · rw [h, rcpt_error_eq]
    exact ⟨rfl, by simp [sieveApplied, hscript]⟩
  · exact absurd (by rw [h]; rfl) hrej

/-- C9 (witness): the Sieve-accept-then-milter-reject scenario: the
recipient list is restored while the `SetEnvelope "from"` modification
persists in the envelope. -/
theorem c9_witness :
    (handle_rcpt_to wParams wEnvSieveMilter wData wRcpt).data.rcpt_to = wData.rcpt_to ∧
    (handle_rcpt_to wParams wEnvSieveMilter wData wRcpt).data.mail_from
        = (applyModifications wData
            [.setEnvelope "from" "other@rewritten.example"]).mail_from :=
  c9_sieve_modifications_survive_rejection wParams wEnvSieveMilter wData wRcpt _
    rfl (by decide) (by decide) (by decide) (by decide) (by decide)

/-! ### Claim C10 -/

/-- C10.  Every RCPT TO outcome is one of: a single direct write with no
tarpit sleep and `rcpt_errors` unchanged (the 503 / 451 / 501 rejections,
the duplicate-collapse 250 and the acceptance 250), or a tarpit path that
sleeps first, then writes one of exactly the two 550 rejections, with
`rcpt_errors` incremented by one — so only the two 550 rejections go
through `rcpt_error`. -/
theorem c10_only_550_through_rcpt_error (p : SmtpParams) (env : RcptEnv)
    (d : SessionData) (rto : RcptTo) :
    (∃ w, (handle_rcpt_to p env d rto).events = [.write w] ∧
          (handle_rcpt_to p env d rto).data.rcpt_errors = d.rcpt_errors) ∨
    (∃ w tail, (w = "550 5.1.2 Mailbox does not exist.\r\n" ∨
                w = "550 5.1.2 Relay not allowed.\r\n") ∧
          (handle_rcpt_to p env d rto).events
              = .sleep p.rcpt_errors_wait :: .write w :: tail ∧
          (handle_rcpt_to p env d rto).data.rcpt_errors = d.rcpt_errors + 1) := by
  rcases handle_rcpt_to_cases p env d rto with
    ⟨w, h, _⟩ | ⟨w, h⟩ | ⟨w, hw, h⟩ | ⟨r', h, _, _⟩
  · exact Or.inl ⟨w, by rw [h], by rw [h]⟩
  · exact Or.inl ⟨w, by rw [h], by rw [h]; exact sieveApplied_rcpt_errors env d⟩
  · refine Or.inr ⟨w,
      (if d.rcpt_errors + 1 < p.rcpt_errors_max then []
       else [.write "421 4.3.0 Too many errors, disconnecting.\r\n"]), hw, ?_, ?_⟩
    · rw [h, rcpt_error_eq]
      simp [sieveApplied_rcpt_errors env d]
    · rw [h, rcpt_error_eq]
      exact congrArg (· + 1) (sieveApplied_rcpt_errors env d)
  · exact Or.inl ⟨"250 2.1.5 OK\r\n", by rw [h],
      by rw [h]; exact sieveApplied_rcpt_errors env d⟩

/-! ### Claim C8 -/

/-- C8.  A STARTTLS command on a plaintext stream with a TLS-capable
acceptor writes exactly `220 2.0.0 Ready to start TLS.`, resets the driver
state to the default `Request` state and returns the hand-over signal, for
every pipelined tail `rest` of the same input slice: the tail is discarded,
never executed (the result is independent of `rest` and no further event is
written).  On a stream already running TLS the reply is
`504 5.7.4 Already in TLS mode.`, and without a TLS acceptor it is
`502 5.7.0 TLS not available.`. -/
theorem c8_starttls_handover (env : IngestEnv) (s : Session) (rest : List Char)
    (hstate : s.state = .request ⟨[]⟩) :
    (s.stream_is_tls = false → s.acceptor_is_tls = true →
      ingest env s ("STARTTLS\r\n".data ++ rest)
        = ({ s with state := State.default },
           [.write "220 2.0.0 Ready to start TLS.\r\n"], .tlsHandover)) ∧
    (s.stream_is_tls = true →
      (ingest env s "STARTTLS\r\n".data).2.1
        = [.write "504 5.7.4 Already in TLS mode.\r\n"]) ∧
    (s.stream_is_tls = false → s.acceptor_is_tls = false →
      (ingest env s "STARTTLS\r\n".data).2.1
        = [.write "502 5.7.0 TLS not available.\r\n"]) := by
  obtain ⟨proto, tls, acc, pa, dat, st⟩ := s
  simp only at hstate
  subst hstate
  refine ⟨fun htls hacc => ?_, fun htls => ?_, fun htls hacc => ?_⟩
  · subst htls hacc
    unfold ingest
    have hfuel : 3 * ("STARTTLS\r\n".data ++ rest).length + 9
        = (3 * ("STARTTLS\r\n".data ++ rest).length + 8) + 1 := by omega
    rw [hfuel]
    have hstep : stepOnce env ("STARTTLS\r\n".data ++ rest).length
        (Session.mk proto false true pa dat (.request ⟨[]⟩))
        ("STARTTLS\r\n".data ++ rest)
        = .ret (Session.mk proto false true pa dat State.default)
            [.write "220 2.0.0 Ready to start TLS.\r\n"] .tlsHandover := rfl
    simp only [ingestLoop, hstep, List.nil_append]
  · subst htls
    rfl
  · subst htls hacc
    rfl

/-- C8 (witness): the three STARTTLS outcomes on concrete sessions, with a
pipelined NOOP after the hand-over that is never executed. -/
theorem c8_witness :
    ingest wEnvIngest wSessionSmtp ("STARTTLS\r\n".data ++ "NOOP\r\n".data)
      = ({ wSessionSmtp with state := State.default },
         [.write "220 2.0.0 Ready to start TLS.\r\n"], .tlsHandover) ∧
    (ingest wEnvIngest wSessionTls "STARTTLS\r\n".data).2.1
      = [.write "504 5.7.4 Already in TLS mode.\r\n"] ∧
    (ingest wEnvIngest wSessionNoAcceptor "STARTTLS\r\n".data).2.1
      = [.write "502 5.7.0 TLS not available.\r\n"] :=
  ⟨(c8_starttls_handover wEnvIngest wSessionSmtp "NOOP\r\n".data rfl).1 rfl rfl,
   (c8_starttls_handover wEnvIngest wSessionTls "NOOP\r\n".data rfl).2.1 rfl,
   (c8_starttls_handover wEnvIngest wSessionNoAcceptor "NOOP\r\n".data rfl).2.2 rfl rfl⟩

/-! ### Claim C7 -/

/-- C7 (counterexample).  The claim lists the HELO domain, the
authenticated identity, the recipient error counter and the session id
among the transactional fields restored to their initial values on RSET.
`reset` (session.rs lines 329-337) does not touch them: on a concrete
populated state every one of these four fields still differs from its
initial value after `reset`. -/
theorem c7_counterexample :
    wDataFull.reset.helo_domain ≠ SessionData.init.helo_domain ∧
    wDataFull.reset.authenticated_as ≠ SessionData.init.authenticated_as ∧
    wDataFull.reset.rcpt_errors ≠ SessionData.init.rcpt_errors ∧
    wDataFull.reset.session_id ≠ SessionData.init.session_id := by
  decide

/-- C7 (amended).  An RSET command replies `250 2.0.0 OK` and replaces the
transactional data by its `reset`, leaving the protocol, the TLS flags and
the connection parameters untouched; and `reset` restores exactly the
envelope fields (MAIL FROM, SPF sender, RCPT list, message buffer,
priority, delivery-by, future-release) to their initial values, while the
HELO domain, the authenticated identity, the recipient error counter and
the session id are kept unchanged (not cleared, contrary to the claim). -/
theorem c7_rset_clears_envelope_only :
    (∀ (env : IngestEnv) (s : Session), s.state = .request ⟨[]⟩ →
       ingest env s "RSET\r\n".data
         = ({ s with data := s.data.reset, state := .request ⟨[]⟩ },
            [.write "250 2.0.0 OK\r\n"], .ok)) ∧
    (∀ d : SessionData,
       d.reset.mail_from = SessionData.init.mail_from ∧
       d.reset.spf_mail_from = SessionData.init.spf_mail_from ∧
       d.reset.rcpt_to = SessionData.init.rcpt_to ∧
       d.reset.message = SessionData.init.message ∧
       d.reset.priority = SessionData.init.priority ∧
       d.reset.delivery_by = SessionData.init.delivery_by ∧
       d.reset.future_release = SessionData.init.future_release ∧
       d.reset.helo_domain = d.helo_domain ∧
       d.reset.authenticated_as = d.authenticated_as ∧
       d.reset.rcpt_errors = d.rcpt_errors ∧
       d.reset.session_id = d.session_id) := by
  constructor
  · intro env s hstate
    obtain ⟨proto, tls, acc, pa, dat, st⟩ := s
    simp only at hstate
    subst hstate
    unfold ingest
    have hfuel : 3 * ("RSET\r\n".data).length + 9
        = (3 * ("RSET\r\n".data).length + 8) + 1 := by omega
    rw [hfuel]
    have hstep : stepOnce env ("RSET\r\n".data).length
        (Session.mk proto tls acc pa dat (.request ⟨[]⟩)) "RSET\r\n".data
        = .cont (Session.mk proto tls acc pa dat.reset (.request ⟨[]⟩)) []
            [.write "250 2.0.0 OK\r\n"] := rfl
    rw [ingestLoop_cont hstep]
    have hfuel2 : 3 * ("RSET\r\n".data).length + 8
        = (3 * ("RSET\r\n".data).length + 7) + 1 := by omega
    rw [hfuel2]
    rw [ingestLoop_halt (request_empty_halt env _ _ rfl)]
    rfl
  · intro d
    exact ⟨rfl, rfl, rfl, rfl, rfl, rfl, rfl, rfl, rfl, rfl, rfl⟩

/-- C7 (witness): a concrete RSET on a session with a sender and a
recipient accepted, and the field-wise effect of `reset` on a fully
populated transactional state. -/
theorem c7_witness :
    ingest wEnvIngest wSessionSmtp "RSET\r\n".data
      = ({ wSessionSmtp with
           data := wSessionSmtp.data.reset
           state := .request ⟨[]⟩ },
         [.write "250 2.0.0 OK\r\n"], .ok) ∧
    wDataFull.reset.mail_from = SessionData.init.mail_from ∧
    wDataFull.reset.helo_domain = wDataFull.helo_domain :=
  ⟨c7_rset_clears_envelope_only.1 wEnvIngest wSessionSmtp rfl,
   (c7_rset_clears_envelope_only.2 wDataFull).1,
   (c7_rset_clears_envelope_only.2 wDataFull).2.2.2.2.2.2.2.1⟩

/-! ### Claim C6 -/

/-- C6 (counterexample).  The claim says the Data-state gate compares
against the bytes of the current input not yet consumed.  It does not: the
code reads `bytes.len()`, the length of the **whole** input slice of this
`ingest` call.  Concretely, with `max_message_size = 10` the pipelined
slice `DATA\r\nhi\r\n.\r\n` (13 octets) trips the gate and the 7-octet
body is discarded with a 552 reply, although only `hi\r\n.\r\n` (7 octets,
below the limit, ending the body) remained unconsumed when the Data state
was entered — under the claimed gate the message would have been queued. -/
theorem c6_counterexample :
    (ingest wEnvIngest wSessionSmall "DATA\r\nhi\r\n.\r\n".data).2.1
      = [.write "354 Start mail input; end with <CRLF>.<CRLF>\r\n",
         .write "552 5.3.4 Message too big for system.\r\n"] ∧
    "hi\r\n.\r\n".data.length < wSessionSmall.params.max_message_size ∧
    (ingest wEnvIngest wSessionSmall "DATA\r\nhi\r\n.\r\n".data).1.data.message
      = [] := by
  decide

/-- C6 (amended).  In the Data driver state the size gate compares
`message.len()` plus the length of the **whole** input slice of the
current `ingest` call (not the unconsumed remainder): when
`message.len() + bytes.len() >= max_message_size` the state shifts to
`DataTooLarge` (here observed up to a still-incomplete discard), and
otherwise the input is fed to the dot-stuffing DATA receiver (here
observed on a still-incomplete body). -/
theorem c6_data_gate_whole_slice (env : IngestEnv) (s : Session) (ph : DPhase)
    (bytes : List Char) (hstate : s.state = .data ph) :
    (∀ dr2 rest2,
       s.params.max_message_size ≤ s.data.message.length + bytes.length →
       drainDummy (.dataDrain ph) bytes = (dr2, rest2, false) →
       ingest env s bytes = ({ s with state := .dataTooLarge dr2 }, [], .ok)) ∧
    (∀ ph2 msg2,
       s.data.message.length + bytes.length < s.params.max_message_size →
       feedData ph s.data.message bytes = (ph2, msg2, [], false) →
       ingest env s bytes
         = ({ s with data := { s.data with message := msg2 }, state := .data ph2 },
            [], .ok)) := by
  constructor
  · intro dr2 rest2 hge hdr
    unfold ingest
    have hfuel : 3 * bytes.length + 9 = (3 * bytes.length + 8) + 1 := by omega
    rw [hfuel]
    rw [ingestLoop_cont (stepOnce_data_gate_fail env bytes.length s ph bytes hstate hge)]
    have hfuel2 : 3 * bytes.length + 8 = (3 * bytes.length + 7) + 1 := by omega
    rw [hfuel2]
    rw [ingestLoop_halt
      (stepOnce_drain_incomplete env bytes.length _ (.dataDrain ph) dr2 bytes rest2
        rfl hdr)]
    rfl
  · intro ph2 msg2 hlt hfd
    unfold ingest
    have hfuel : 3 * bytes.length + 9 = (3 * bytes.length + 8) + 1 := by omega
    rw [hfuel]
    rw [ingestLoop_halt
      (stepOnce_data_incomplete env bytes.length s ph ph2 bytes msg2 [] hstate hlt hfd)]

/-- C6 (witness): with a 10-octet limit and an empty buffer, an 11-octet
slice trips the gate although nothing is buffered yet; with the regular
limit, a 5-octet partial body is fed to the DATA receiver. -/
theorem c6_witness :
    ingest wEnvIngest wSessionDataSmall "0123456789x".data
      = ({ wSessionDataSmall with state := .dataTooLarge (.dataDrain .midLine) },
         [], .ok) ∧
    ingest wEnvIngest wSessionData "hello".data
      = ({ wSessionData with
           data := { wSessionData.data with message := "hello".data }
           state := .data .midLine },
         [], .ok) :=
  ⟨(c6_data_gate_whole_slice wEnvIngest wSessionDataSmall .lineStart
      "0123456789x".data rfl).1 (.dataDrain .midLine) [] (by decide) (by decide),
   (c6_data_gate_whole_slice wEnvIngest wSessionData .lineStart
      "hello".data rfl).2 .midLine "hello".data (by decide) (by decide)⟩

/-! ### Claim C3 -/

/-- C3.  When a message body completes with `k` accepted recipients, the
queue reply `r` is written exactly `List.replicate` (1 for SMTP, `k` for
LMTP) times, the transactional state is reset and the driver returns to
`Request` — both for a DATA body reaching its terminator and for the
completing last BDAT chunk with throttling permitted; and when the queue
reply is empty, `ingest` returns the disconnect signal with no reply
written at all. -/
theorem c3_queue_reply_multiplicity (env : IngestEnv) (s : Session) :
    (∀ ph ph2 bytes msg2, s.state = .data ph →
       s.data.message.length + bytes.length < s.params.max_message_size →
       feedData ph s.data.message bytes = (ph2, msg2, [], true) →
       env.queue_reply ≠ "" →
       ingest env s bytes
         = ({ s with data := s.data.reset, state := .request ⟨[]⟩ },
            List.replicate
              (match s.protocol with | .smtp => 1 | .lmtp => s.data.rcpt_to.length)
              (.write env.queue_reply), .ok)) ∧
    (∀ ph ph2 bytes msg2 rest2, s.state = .data ph →
       s.data.message.length + bytes.length < s.params.max_message_size →
       feedData ph s.data.message bytes = (ph2, msg2, rest2, true) →
       env.queue_reply = "" →
       ingest env s bytes
         = ({ s with data := { s.data with message := msg2 } }, [], .disconnect)) ∧
    (∀ br br2 bytes msg2, s.state = .bdat br → br.is_last = true →
       feedBdat br s.data.message bytes = (br2, msg2, [], true) →
       canSendData env { s.data with message := msg2 } = (true, []) →
       env.queue_reply ≠ "" →
       ingest env s bytes
         = ({ s with data := s.data.reset, state := .request ⟨[]⟩ },
            List.replicate
              (match s.protocol with | .smtp => 1 | .lmtp => s.data.rcpt_to.length)
              (.write env.queue_reply), .ok)) ∧
    (∀ br br2 bytes msg2 rest2, s.state = .bdat br → br.is_last = true →
       feedBdat br s.data.message bytes = (br2, msg2, rest2, true) →
       canSendData env { s.data with message := msg2 } = (true, []) →
       env.queue_reply = "" →
       ingest env s bytes
         = ({ s with data := { s.data with message := msg2 } }, [], .disconnect)) := by
  obtain ⟨proto, tls, acc, pa, dat, st⟩ := s
  refine ⟨?_, ?_, ?_, ?_⟩
  · intro ph ph2 bytes msg2 hstate hgate hfd hq
    simp only at hstate hgate hfd
    subst hstate
    unfold ingest
    have hfuel : 3 * bytes.length + 9 = (3 * bytes.length + 8) + 1 := by omega
    rw [hfuel]
    rw [ingestLoop_cont
      ((stepOnce_data_complete env bytes.length _ ph ph2 bytes msg2 [] rfl hgate
        hfd).2 hq)]
    have hfuel2 : 3 * bytes.length + 8 = (3 * bytes.length + 7) + 1 := by omega
    rw [hfuel2]
    rw [ingestLoop_halt (request_empty_halt env _ _ rfl)]
    cases proto
    · rfl
    · rfl
  · intro ph ph2 bytes msg2 rest2 hstate hgate hfd hq
    simp only at hstate hgate hfd
    subst hstate
    unfold ingest
    have hfuel : 3 * bytes.length + 9 = (3 * bytes.length + 8) + 1 := by omega
    rw [hfuel]
    rw [ingestLoop_ret
      ((stepOnce_data_complete env bytes.length _ ph ph2 bytes msg2 rest2 rfl hgate
        hfd).1 hq)]
    rfl
  · intro br br2 bytes msg2 hstate hlast hfb hcs hq
    simp only at hstate hfb hcs
    subst hstate
    unfold ingest
    have hfuel : 3 * bytes.length + 9 = (3 * bytes.length + 8) + 1 := by omega
    rw [hfuel]
    rw [ingestLoop_cont
      ((stepOnce_bdat_complete env bytes.length _ br br2 bytes msg2 [] rfl hlast
        hfb hcs).2 hq)]
    have hfuel2 : 3 * bytes.length + 8 = (3 * bytes.length + 7) + 1 := by omega
    rw [hfuel2]
    rw [ingestLoop_halt (request_empty_halt env _ _ rfl)]
    cases proto
    · rfl
    · rfl
  · intro br br2 bytes msg2 rest2 hstate hlast hfb hcs hq
    simp only at hstate hfb hcs
    subst hstate
    unfold ingest
    have hfuel : 3 * bytes.length + 9 = (3 * bytes.length + 8) + 1 := by omega
    rw [hfuel]
    rw [ingestLoop_ret
      ((stepOnce_bdat_complete env bytes.length _ br br2 bytes msg2 rest2 rfl hlast
        hfb hcs).1 hq)]
    rfl

/-- C3 (witness): the same completing DATA body queued once in SMTP and
twice in LMTP (two accepted recipients), the disconnect signal with no
write on an empty queue reply, and a completing last BDAT chunk queued
once. -/
theorem c3_witness :
    ingest wEnvIngest wSessionData "hi\r\n.\r\n".data
      = ({ wSessionData with
           data := wSessionData.data.reset
           state := .request ⟨[]⟩ },
         List.replicate 1 (.write wEnvIngest.queue_reply), .ok) ∧
    ingest wEnvIngest wSessionDataLmtp "hi\r\n.\r\n".data
      = ({ wSessionDataLmtp with
           data := wSessionDataLmtp.data.reset
           state := .request ⟨[]⟩ },
         List.replicate 2 (.write wEnvIngest.queue_reply), .ok) ∧
    ingest wEnvIngestEmpty wSessionData "hi\r\n.\r\n".data
      = ({ wSessionData with
           data := { wSessionData.data with message := "hi\r\n".data } },
         [], .disconnect) ∧
    ingest wEnvIngest wSessionBdat "hello".data
      = ({ wSessionBdat with
           data := wSessionBdat.data.reset
           state := .request ⟨[]⟩ },
         List.replicate 1 (.write wEnvIngest.queue_reply), .ok) :=
  ⟨(c3_queue_reply_multiplicity wEnvIngest wSessionData).1 .lineStart .dotCr
      "hi\r\n.\r\n".data "hi\r\n".data rfl (by decide) (by decide) (by decide),
   (c3_queue_reply_multiplicity wEnvIngest wSessionDataLmtp).1 .lineStart .dotCr
      "hi\r\n.\r\n".data "hi\r\n".data rfl (by decide) (by decide) (by decide),
   (c3_queue_reply_multiplicity wEnvIngestEmpty wSessionData).2.1 .lineStart .dotCr
      "hi\r\n.\r\n".data "hi\r\n".data [] rfl (by decide) (by decide) rfl,
   (c3_queue_reply_multiplicity wEnvIngest wSessionBdat).2.2.1 ⟨5, true⟩ ⟨0, true⟩
      "hello".data "hello".data rfl rfl (by decide) (by decide) (by decide)⟩

/-! ### Claim C2 -/

/-- C2.  (i) A fresh session satisfies the size invariant; (ii) `ingest`
preserves it: the resulting message buffer never exceeds
`max_message_size`, and whenever `ingest` hands control back with `Ok`
the full inductive invariant holds again — so in every reachable state
`message.len()` is bounded; (iii) a DATA body whose size gate trips
shifts the driver state to `DataTooLarge`; (iv) an announced BDAT chunk
that would violate the bound shifts the driver state to `DataTooLarge`
without buffering anything; (v) once the discard state completes, the
message buffer is empty and the reply is
`552 5.3.4 Message too big for system.`. -/
theorem c2_message_size_invariant :
    (∀ (proto : Protocol) (tls acc : Bool) (pa : SmtpParams),
       SizeInv ⟨proto, tls, acc, pa, SessionData.init, State.default⟩) ∧
    (∀ (env : IngestEnv) (s : Session) (bytes : List Char), SizeInv s →
       MsgBound (ingest env s bytes).1 ∧
       ((ingest env s bytes).2.2 = .ok → SizeInv (ingest env s bytes).1)) ∧
    (∀ (env : IngestEnv) (bytesLen : Nat) (s : Session) (ph : DPhase)
       (rem : List Char), s.state = .data ph →
       s.params.max_message_size ≤ s.data.message.length + bytesLen →
       stepOnce env bytesLen s rem
         = .cont { s with state := .dataTooLarge (.dataDrain ph) } rem []) ∧
    (∀ (env : IngestEnv) (bytesLen : Nat) (s : Session) (rr : RequestReceiver)
       (rem line rest : List Char) (n : Nat) (lastFlag : Bool),
       s.state = .request rr →
       rr.ingestLine rem = .line line rest →
       parseRequest line = .ok (.bdat n lastFlag) →
       s.params.max_message_size ≤ n + s.data.message.length →
       stepOnce env bytesLen s rem
         = .cont { s with state := .dataTooLarge (.bdatDrain n) } rest []) ∧
    (∀ (env : IngestEnv) (s : Session) (dr dr2 : DummyDataReceiver)
       (bytes : List Char), s.state = .dataTooLarge dr →
       drainDummy dr bytes = (dr2, [], true) →
       ingest env s bytes
         = ({ s with
              data := { s.data with message := [] }
              state := .request ⟨[]⟩ },
            [.write "552 5.3.4 Message too big for system.\r\n"], .ok)) := by
  refine ⟨?_, ?_, ?_, ?_, ?_⟩
  · intro proto tls acc pa
    exact And.intro (Nat.zero_le _) (fun br hbr => State.noConfusion hbr)
  · intro env s bytes hinv
    exact ingestLoop_size env bytes.length (3 * bytes.length + 9) s bytes []
      le_rfl hinv
  · intro env bytesLen s ph rem hstate hge
    exact stepOnce_data_gate_fail env bytesLen s ph rem hstate hge
  · intro env bytesLen s rr rem line rest n lastFlag hstate hline hparse hge
    obtain ⟨proto, tls, acc, pa, dat, st⟩ := s
    simp only at hstate hge
    subst hstate
    simp only [stepOnce]
    rw [hline]
    dsimp only
    rw [hparse]
    dsimp only
    rw [if_neg (by omega)]
  · intro env s dr dr2 bytes hstate hdr
    unfold ingest
    have hfuel : 3 * bytes.length + 9 = (3 * bytes.length + 8) + 1 := by omega
    rw [hfuel]
    rw [ingestLoop_cont
      (stepOnce_drain_complete env bytes.length s dr dr2 bytes [] hstate hdr)]
    have hfuel2 : 3 * bytes.length + 8 = (3 * bytes.length + 7) + 1 := by omega
    rw [hfuel2]
    rw [ingestLoop_halt (request_empty_halt env _ _ rfl)]
    rfl

/-- C2 (witness): the invariant-bearing parts applied to concrete inputs —
the bound after ingesting a partial body, the gate trip on an 11-octet
slice against a 10-octet limit, an announced 99-octet BDAT chunk against a
10-octet limit, and the 552 reply with an emptied buffer when the discard
completes. -/
theorem c2_witness :
    MsgBound (ingest wEnvIngest wSessionData "hi\r\n".data).1 ∧
    stepOnce wEnvIngest 11 wSessionDataSmall "0123456789x".data
      = .cont { wSessionDataSmall with state := .dataTooLarge (.dataDrain .lineStart) }
          "0123456789x".data [] ∧
    stepOnce wEnvIngest 14 wSessionSmall "BDAT 99 LAST\r\n".data
      = .cont { wSessionSmall with state := .dataTooLarge (.bdatDrain 99) } [] [] ∧
    ingest wEnvIngest wSessionDrain "x\r\n.\r\n".data
      = ({ wSessionDrain with
           data := { wSessionDrain.data with message := [] }
           state := .request ⟨[]⟩ },
         [.write "552 5.3.4 Message too big for system.\r\n"], .ok) := by
  refine ⟨?_, ?_, ?_, ?_⟩
  · refine (c2_message_size_invariant.2.1 wEnvIngest wSessionData "hi\r\n".data
      ⟨?_, ?_⟩).1
    · show wSessionData.data.message.length ≤ wSessionData.params.max_message_size
      decide
    · exact fun br hbr => State.noConfusion hbr
  · exact c2_message_size_invariant.2.2.1 wEnvIngest 11 wSessionDataSmall
      .lineStart "0123456789x".data rfl (by decide)
  · exact c2_message_size_invariant.2.2.2.1 wEnvIngest 14 wSessionSmall ⟨[]⟩
      "BDAT 99 LAST\r\n".data "BDAT 99 LAST".data [] 99 true rfl (by decide)
      rfl (by decide)
  · exact c2_message_size_invariant.2.2.2.2 wEnvIngest wSessionDrain
      (.dataDrain .lineStart) (.dataDrain .dotCr) "x\r\n.\r\n".data rfl (by decide)

end MailServer
